import Mathlib

/-!
Shallow embedding of the two algorithmic engines of the `noworries` UI-validation
repository: the rule-based `ComparisonEngine` (`src/services/comparison-engine`)
and the pixel-level `VisualDiffEngine` (`src/services/visual-diff`), together
with proofs of behavioural properties stated in the specification.

Modelling conventions:
* JavaScript floating-point numbers are modelled as rationals (`ℚ`); the value
  `Infinity` (which arises only as the initial minimum of the colour-token scan)
  is modelled by `⊤` in `WithTop ℚ`.
* A CSS string-valued numeric property is modelled by its parse result:
  `none` stands for an absent/empty (falsy) string, `some none` for a present
  string on which `parseFloat` yields `NaN`, and `some (some q)` for a present
  string parsing to the number `q`.
* The `chroma-js` colour library is an external dependency; it is abstracted as
  a `ChromaLib` record of its three operations used by the engine.
-/

namespace UIValidator

/-- Severity levels of a style mismatch (`MismatchSeverity` in `src/types`). -/
inductive MismatchSeverity
  | critical
  | major
  | minor
  | info
deriving DecidableEq, Repr

/-- The seven mismatch categories (`MismatchCategory` in `src/types`). -/
inductive MismatchCategory
  | color
  | typography
  | spacing
  | layout
  | border
  | alignment
  | size
deriving DecidableEq, Repr

/-- Expected/actual values recorded in a mismatch.  The engine builds strings
such as `"32px"` (`.px 32`), `"700"` (`.num 700`) or hex codes (`.str`);
numeric template strings are represented by their numeric payload. -/
inductive StyleValue
  | px : ℚ → StyleValue
  | num : ℚ → StyleValue
  | str : String → StyleValue
deriving DecidableEq, Repr

/-- The element descriptor embedded in every mismatch record. -/
structure ElementRef where
  selector : String
  tagName : String
  id : Option String
  className : Option String
deriving DecidableEq, Repr

/-- A style mismatch record (`StyleMismatch` in `src/types`).  The `id` field of
the source (`"mismatch-" ++ k` with `k` the 1-based emission index) is omitted:
it is determined by the position in the result list and no property refers to
it. -/
structure StyleMismatch where
  category : MismatchCategory
  property : String
  expectedValue : StyleValue
  actualValue : StyleValue
  element : ElementRef
  figmaComponent : Option String := none
  deviation : WithTop ℚ
  severity : MismatchSeverity
deriving DecidableEq, Repr

/-- A Figma colour token: `{ hex: string; name: string }`. -/
structure ColorToken where
  name : String
  hex : String
deriving DecidableEq, Repr

/-- A Figma typography token.  `lineHeight` has TypeScript type
`number | string`; `none` models the string case. -/
structure TypographyToken where
  name : String
  fontFamily : String
  fontSize : ℚ
  fontWeight : ℚ
  lineHeight : Option ℚ
  letterSpacing : ℚ
deriving DecidableEq, Repr

/-- A Figma spacing token: `{ name: string; value: number }`. -/
structure SpacingToken where
  name : String
  value : ℚ
deriving DecidableEq, Repr

/-- The design-token collections read by the comparison engine (the unused
`effects` collection is omitted). -/
structure DesignTokens where
  colors : List ColorToken
  typography : List TypographyToken
  spacing : List SpacingToken
deriving DecidableEq, Repr

/-- A numeric CSS property as observed by the engine: the `parseFloat` view of
the computed-style string (see the module docstring). -/
abbrev NumProp := Option (Option ℚ)

/-- The computed `line-height` string: absent/falsy, the keyword `"normal"`, or
some other string together with its `parseFloat` result. -/
inductive LineHeightProp
  | absent
  | normal
  | value : Option ℚ → LineHeightProp
deriving DecidableEq, Repr

/-- The slice of `ComputedStyleData` read by the comparison engine.
`color`, `backgroundColor`, `borderColor` and `borderWidth` are kept as raw
strings (the engine compares `backgroundColor` against the literal
`'rgba(0, 0, 0, 0)'` and `borderWidth` against `'0px'`, and hands the colour
strings to `chroma`).  `fontWeight` is modelled by its numeric parse result
(computed font-weight strings are numeric). -/
structure ComputedStyleData where
  color : Option String := none
  backgroundColor : Option String := none
  fontSize : NumProp := none
  fontWeight : Option ℚ := none
  lineHeight : LineHeightProp := .absent
  margin : NumProp := none
  marginTop : NumProp := none
  marginRight : NumProp := none
  marginBottom : NumProp := none
  marginLeft : NumProp := none
  padding : NumProp := none
  paddingTop : NumProp := none
  paddingRight : NumProp := none
  paddingBottom : NumProp := none
  paddingLeft : NumProp := none
  borderRadius : NumProp := none
  borderWidth : Option String := none
  borderColor : Option String := none
  gap : NumProp := none
deriving DecidableEq, Repr

/-- A DOM element of the style tree (`DOMElement` in `src/types`), restricted
to the fields the comparison engine reads.  `id`/`className` use `none` for a
falsy (absent or empty) value. -/
structure DOMElement where
  tagName : String
  id : Option String := none
  className : Option String := none
  computedStyles : ComputedStyleData
  children : List DOMElement

/-- A Figma component as consumed by `compareComponents`: a name and optional
resolved styles. -/
structure FigmaComponent where
  name : String
  styles : Option ComputedStyleData

/-- The slice of `WebAnalysisResult` read by the engine. -/
structure WebAnalysisResult where
  domTree : List DOMElement

/-- The slice of `FigmaAnalysisResult` read by the engine. -/
structure FigmaAnalysisResult where
  designTokens : DesignTokens
  components : List FigmaComponent

/-- Opaque stand-in for a parsed `chroma` colour object. -/
abbrev Color := ℕ

/-- The three operations of the external `chroma-js` library used by the
engine: `chroma(string)` (with `none` for a throwing parse), `chroma.deltaE`,
and `c.hex().toUpperCase()`. -/
structure ChromaLib where
  parse : String → Option Color
  deltaE : Color → Color → ℚ
  hexUpper : Color → String

/-- Tolerance and severity thresholds (the `THRESHOLDS` constant). -/
def THRESHOLDS.color.deltaE : ℚ := 5

/-- Colour critical-severity threshold. -/
def THRESHOLDS.color.critical : ℚ := 20

/-- Colour major-severity threshold. -/
def THRESHOLDS.color.major : ℚ := 10

/-- Font-size pixel tolerance. -/
def THRESHOLDS.fontSize.pixels : ℚ := 2

/-- Font-size critical-severity threshold. -/
def THRESHOLDS.fontSize.critical : ℚ := 8

/-- Font-size major-severity threshold. -/
def THRESHOLDS.fontSize.major : ℚ := 4

/-- Spacing pixel tolerance. -/
def THRESHOLDS.spacing.pixels : ℚ := 4

/-- Spacing critical-severity threshold. -/
def THRESHOLDS.spacing.critical : ℚ := 16

/-- Spacing major-severity threshold. -/
def THRESHOLDS.spacing.major : ℚ := 8

/-- Border-radius pixel tolerance. -/
def THRESHOLDS.borderRadius.pixels : ℚ := 2

/-- Border-radius critical-severity threshold. -/
def THRESHOLDS.borderRadius.critical : ℚ := 8

/-- Border-radius major-severity threshold. -/
def THRESHOLDS.borderRadius.major : ℚ := 4

/-- Line-height ratio tolerance. -/
def THRESHOLDS.lineHeight.ratio : ℚ := 1 / 10

/-- Line-height critical-severity threshold. -/
def THRESHOLDS.lineHeight.critical : ℚ := 3 / 10

/-- Line-height major-severity threshold. -/
def THRESHOLDS.lineHeight.major : ℚ := 2 / 10

/-- Severity of a colour mismatch (`getColorSeverity`).  The deviation may be
`⊤` (JavaScript `Infinity`, when no token colour parses). -/
def getColorSeverity (deltaE : WithTop ℚ) : MismatchSeverity :=
  if (THRESHOLDS.color.critical : WithTop ℚ) ≤ deltaE then .critical
  else if (THRESHOLDS.color.major : WithTop ℚ) ≤ deltaE then .major
  else .minor

/-- Severity of a font-size mismatch (`getFontSizeSeverity`). -/
def getFontSizeSeverity (diff : ℚ) : MismatchSeverity :=
  if THRESHOLDS.fontSize.critical ≤ diff then .critical
  else if THRESHOLDS.fontSize.major ≤ diff then .major
  else .minor

/-- Severity of a spacing mismatch (`getSpacingSeverity`). -/
def getSpacingSeverity (diff : ℚ) : MismatchSeverity :=
  if THRESHOLDS.spacing.critical ≤ diff then .critical
  else if THRESHOLDS.spacing.major ≤ diff then .major
  else .minor

/-- Severity of a border-radius mismatch (`getBorderRadiusSeverity`). -/
def getBorderRadiusSeverity (diff : ℚ) : MismatchSeverity :=
  if THRESHOLDS.borderRadius.critical ≤ diff then .critical
  else if THRESHOLDS.borderRadius.major ≤ diff then .major
  else .minor

/-- Severity of a line-height mismatch (`getLineHeightSeverity`), applied to
the ratio difference (not to the recorded deviation, which is 100 times it). -/
def getLineHeightSeverity (diff : ℚ) : MismatchSeverity :=
  if THRESHOLDS.lineHeight.critical ≤ diff then .critical
  else if THRESHOLDS.lineHeight.major ≤ diff then .major
  else .minor

/-- Truthiness of a numeric CSS property string (a present string — even
`"0px"` — is truthy; an absent/empty one is falsy). -/
def NumProp.isTruthy : NumProp → Bool
  | none => false
  | some _ => true

/-- `parseFloat(s) || 0`: the parsed value, or `0` on `NaN`/absence (a parse
result of `0` also yields `0`). -/
def NumProp.parseOr0 : NumProp → ℚ
  | some (some v) => v
  | _ => 0

/-- `parseFloat(s) || 16`: the parsed value, or `16` when the parse yields
`NaN`, the string is absent, or the parsed value is `0` (falsy). -/
def NumProp.parseOr16 : NumProp → ℚ
  | some (some v) => if v = 0 then 16 else v
  | _ => 16

/-- Truthiness of the computed `line-height` string. -/
def LineHeightProp.isTruthy : LineHeightProp → Bool
  | .absent => false
  | _ => true

/-- `parseFloat` view of the `line-height` string with `|| 0`
(`"normal"` parses to `NaN`, hence `0`). -/
def LineHeightProp.parseOr0 : LineHeightProp → ℚ
  | .value (some v) => v
  | _ => 0

/-- What `findColorMismatch` returns when the colour is not close enough to
any token. -/
structure FoundColorMismatch where
  expected : String
  actual : String
  deviation : WithTop ℚ
deriving DecidableEq, Repr

/-- One step of the token loop in `findColorMismatch`: tokens whose hex fails
to parse are skipped (the inner `catch`/`continue`); the running minimum
starts at `Infinity` (`none`) and is strictly improved, so the first token
attaining the minimum is kept. -/
def colorStep (lib : ChromaLib) (actualChroma : Color)
    (acc : ColorToken × Option ℚ) (tok : ColorToken) : ColorToken × Option ℚ :=
  match lib.parse tok.hex with
  | none => acc
  | some figmaChroma =>
    let d := lib.deltaE actualChroma figmaChroma
    match acc.2 with
    | none => (tok, some d)
    | some m => if d < m then (tok, some d) else acc

/-- `ComparisonEngine.findColorMismatch`.  An unparseable actual colour, or an
empty token list (whose `figmaColors[0].hex` access throws), is caught by the
enclosing `try`/`catch` and yields `null`.  When no token hex parses the
minimum stays `Infinity` (`⊤`): the `minDeltaE <= 5` test fails and the
never-updated `closestColor = figmaColors[0]` is reported. -/
def findColorMismatch (lib : ChromaLib) (actualColor : String)
    (figmaColors : List ColorToken) : Option FoundColorMismatch :=
  match lib.parse actualColor with
  | none => none
  | some actualChroma =>
    match figmaColors with
    | [] => none
    | t0 :: _ =>
      let best := figmaColors.foldl (colorStep lib actualChroma) (t0, none)
      match best.2 with
      | none => some ⟨t0.hex, lib.hexUpper actualChroma, ⊤⟩
      | some minDeltaE =>
        if minDeltaE ≤ THRESHOLDS.color.deltaE then none
        else some ⟨best.1.hex, lib.hexUpper actualChroma, (minDeltaE : WithTop ℚ)⟩

/-- Which numeric field `findClosestTypography` compares against. -/
inductive TypoProperty
  | fontSize
  | fontWeight
deriving DecidableEq, Repr

/-- Field selection used by `findClosestTypography`. -/
def TypographyToken.getProp (t : TypographyToken) : TypoProperty → ℚ
  | .fontSize => t.fontSize
  | .fontWeight => t.fontWeight

/-- `ComparisonEngine.findClosestTypography`: first token with the strictly
smallest absolute difference on the selected field. -/
def findClosestTypography (value : ℚ) (typography : List TypographyToken)
    (property : TypoProperty) : Option TypographyToken :=
  match typography with
  | [] => none
  | t0 :: _ =>
    some (typography.foldl
      (fun acc t =>
        if |value - t.getProp property| < acc.2 then (t, |value - t.getProp property|)
        else acc)
      (t0, |value - t0.getProp property|)).1

/-- What `findSpacingMismatch` returns past the spacing tolerance. -/
structure FoundSpacingMismatch where
  expected : ℚ
  deviation : ℚ
deriving DecidableEq, Repr

/-- `ComparisonEngine.findSpacingMismatch`: nearest candidate value (first on
ties) and its distance, or `null` when the minimum distance is within the
spacing pixel tolerance. -/
def findSpacingMismatch (actual : ℚ) (spacingValues : List ℚ) :
    Option FoundSpacingMismatch :=
  match spacingValues with
  | [] => none
  | v0 :: _ =>
    let best := spacingValues.foldl
      (fun acc v => if |actual - v| < acc.2 then (v, |actual - v|) else acc)
      (v0, |actual - v0|)
    if best.2 ≤ THRESHOLDS.spacing.pixels then none
    else some ⟨best.1, best.2⟩

/-- `ComparisonEngine.buildSelector`: id, else first class, else the positional
path, else the tag name. -/
def buildSelector (element : DOMElement) (path : String) : String :=
  match element.id with
  | some i => "#" ++ i
  | none =>
    match element.className with
    | some cn =>
      let firstClass := (cn.splitOn " ").headD ""
      if firstClass ≠ "" then "." ++ firstClass
      else if path ≠ "" then path else element.tagName
    | none => if path ≠ "" then path else element.tagName

/-- The element descriptor stored with each mismatch by `addMismatch`. -/
def mkElementRef (element : DOMElement) (selector : String) : ElementRef :=
  ⟨selector, element.tagName, element.id, element.className⟩

/-- The per-element body of `compareColors`' `processElement`: text colour,
background colour (skipped on the fully-transparent literal), and border
colour (skipped when `borderWidth` is the string `'0px'`). -/
def colorCheck (lib : ChromaLib) (figmaColors : List ColorToken)
    (element : DOMElement) (selector : String) : List StyleMismatch :=
  let styles := element.computedStyles
  let eref := mkElementRef element selector
  (match styles.color with
   | some c =>
     match findColorMismatch lib c figmaColors with
     | some fm =>
       [{ category := .color, property := "color", expectedValue := .str fm.expected,
          actualValue := .str fm.actual, element := eref, deviation := fm.deviation,
          severity := getColorSeverity fm.deviation }]
     | none => []
   | none => []) ++
  (match styles.backgroundColor with
   | some bg =>
     if bg ≠ "rgba(0, 0, 0, 0)" then
       match findColorMismatch lib bg figmaColors with
       | some fm =>
         [{ category := .color, property := "backgroundColor",
            expectedValue := .str fm.expected, actualValue := .str fm.actual,
            element := eref, deviation := fm.deviation,
            severity := getColorSeverity fm.deviation }]
       | none => []
     else []
   | none => []) ++
  (match styles.borderColor with
   | some bc =>
     if styles.borderWidth ≠ some "0px" then
       match findColorMismatch lib bc figmaColors with
       | some fm =>
         [{ category := .border, property := "borderColor",
            expectedValue := .str fm.expected, actualValue := .str fm.actual,
            element := eref, deviation := fm.deviation,
            severity := getColorSeverity fm.deviation }]
       | none => []
     else []
   | none => [])

/-- The font-size check of `compareTypography`.  A present but unparseable
string yields `NaN`, on which every comparison is false, hence no mismatch. -/
def checkFontSize (figmaTypography : List TypographyToken)
    (styles : ComputedStyleData) (eref : ElementRef) : List StyleMismatch :=
  match styles.fontSize with
  | some (some actualSize) =>
    match findClosestTypography actualSize figmaTypography .fontSize with
    | some closestTypo =>
      if THRESHOLDS.fontSize.pixels < |actualSize - closestTypo.fontSize| then
        [{ category := .typography, property := "fontSize",
           expectedValue := .px closestTypo.fontSize, actualValue := .px actualSize,
           element := eref, deviation := (|actualSize - closestTypo.fontSize| : ℚ),
           severity := getFontSizeSeverity |actualSize - closestTypo.fontSize| }]
      else []
    | none => []
  | _ => []

/-- The font-weight check of `compareTypography`: mismatches on any difference,
always with severity `minor`. -/
def checkFontWeight (figmaTypography : List TypographyToken)
    (styles : ComputedStyleData) (eref : ElementRef) : List StyleMismatch :=
  match styles.fontWeight with
  | some actualWeight =>
    match findClosestTypography actualWeight figmaTypography .fontWeight with
    | some closestTypo =>
      if actualWeight ≠ closestTypo.fontWeight then
        [{ category := .typography, property := "fontWeight",
           expectedValue := .num closestTypo.fontWeight, actualValue := .num actualWeight,
           element := eref, deviation := (|actualWeight - closestTypo.fontWeight| : ℚ),
           severity := .minor }]
      else []
    | none => []
  | none => []

/-- The expected line height of a typography token: the numeric `lineHeight`,
or `fontSize * 1.5` with the *element's* font size when it is a string. -/
def expectedLineHeightOf (fontSize : ℚ) (typo : TypographyToken) : ℚ :=
  match typo.lineHeight with
  | some n => n
  | none => fontSize * (3 / 2)

/-- The token loop of the line-height check: the first token whose
line-height/font-size ratio differs from the actual ratio by more than the
tolerance produces a mismatch, and the loop `break`s. -/
def lineHeightLoop (actualLineHeight actualRatio fontSize : ℚ) (eref : ElementRef) :
    List TypographyToken → List StyleMismatch
  | [] => []
  | typo :: rest =>
    let expectedLineHeight := expectedLineHeightOf fontSize typo
    let expectedRatio := expectedLineHeight / typo.fontSize
    if THRESHOLDS.lineHeight.ratio < |actualRatio - expectedRatio| then
      [{ category := .typography, property := "lineHeight",
         expectedValue := .px expectedLineHeight, actualValue := .px actualLineHeight,
         element := eref, deviation := (|actualRatio - expectedRatio| * 100 : ℚ),
         severity := getLineHeightSeverity |actualRatio - expectedRatio| }]
    else lineHeightLoop actualLineHeight actualRatio fontSize eref rest

/-- The line-height check of `compareTypography`: skipped when the computed
value is absent or the keyword `"normal"`; an unparseable value yields `NaN`
ratios on which every comparison is false, hence no mismatch. -/
def checkLineHeight (figmaTypography : List TypographyToken)
    (styles : ComputedStyleData) (eref : ElementRef) : List StyleMismatch :=
  match styles.lineHeight with
  | .value (some actualLineHeight) =>
    let fontSize := styles.fontSize.parseOr16
    lineHeightLoop actualLineHeight (actualLineHeight / fontSize) fontSize eref
      figmaTypography
  | _ => []

/-- The per-element body of `compareTypography`'s `processElement`. -/
def typographyCheck (figmaTypography : List TypographyToken)
    (element : DOMElement) (selector : String) : List StyleMismatch :=
  let styles := element.computedStyles
  let eref := mkElementRef element selector
  checkFontSize figmaTypography styles eref
    ++ checkFontWeight figmaTypography styles eref
    ++ checkLineHeight figmaTypography styles eref

/-- One padding/margin/gap check of `compareSpacing`:
`const value = parseFloat(styles[prop]) || 0; if (value > 0) ...`. -/
def spacingPropCheck (spacingValues : List ℚ) (eref : ElementRef)
    (propName : String) (field : NumProp) : List StyleMismatch :=
  let value := field.parseOr0
  if 0 < value then
    match findSpacingMismatch value spacingValues with
    | some m =>
      [{ category := .spacing, property := propName,
         expectedValue := .px m.expected, actualValue := .px value,
         element := eref, deviation := (m.deviation : ℚ),
         severity := getSpacingSeverity m.deviation }]
    | none => []
  else []

/-- The border-radius check of `compareSpacing`: the spacing-token filter of
`findSpacingMismatch` applies first, then the extra
`deviation > THRESHOLDS.borderRadius.pixels` test. -/
def borderRadiusCheck (spacingValues : List ℚ) (styles : ComputedStyleData)
    (eref : ElementRef) : List StyleMismatch :=
  match styles.borderRadius with
  | some br =>
    let value := NumProp.parseOr0 (some br)
    if 0 < value then
      match findSpacingMismatch value spacingValues with
      | some m =>
        if THRESHOLDS.borderRadius.pixels < m.deviation then
          [{ category := .border, property := "borderRadius",
             expectedValue := .px m.expected, actualValue := .px value,
             element := eref, deviation := (m.deviation : ℚ),
             severity := getBorderRadiusSeverity m.deviation }]
        else []
      | none => []
    else []
  | none => []

/-- The per-element body of `compareSpacing`'s `processElement`: the four
padding sides, the four margin sides, `gap` (behind a truthiness check) and
`borderRadius`, in source order. -/
def spacingCheck (spacingValues : List ℚ) (element : DOMElement)
    (selector : String) : List StyleMismatch :=
  let styles := element.computedStyles
  let eref := mkElementRef element selector
  spacingPropCheck spacingValues eref "paddingTop" styles.paddingTop
    ++ spacingPropCheck spacingValues eref "paddingRight" styles.paddingRight
    ++ spacingPropCheck spacingValues eref "paddingBottom" styles.paddingBottom
    ++ spacingPropCheck spacingValues eref "paddingLeft" styles.paddingLeft
    ++ spacingPropCheck spacingValues eref "marginTop" styles.marginTop
    ++ spacingPropCheck spacingValues eref "marginRight" styles.marginRight
    ++ spacingPropCheck spacingValues eref "marginBottom" styles.marginBottom
    ++ spacingPropCheck spacingValues eref "marginLeft" styles.marginLeft
    ++ (match styles.gap with
        | some g => spacingPropCheck spacingValues eref "gap" (some g)
        | none => [])
    ++ borderRadiusCheck spacingValues styles eref

mutual

/-- The recursion shared by the three `processElement` closures of
`compareColors`/`compareTypography`/`compareSpacing`: run the per-element
check, then recurse into the children with positional selectors. -/
def processElementTree (check : DOMElement → String → List StyleMismatch) :
    DOMElement → String → List StyleMismatch
  | element, path =>
    let selector := buildSelector element path
    check element selector ++ processChildren check element.children selector 1
termination_by element _ => sizeOf element
decreasing_by cases element; simp

/-- Children traversal of `processElementTree`
(`children.forEach((child, index) => processElement(child,
selector + " > :nth-child(" + (index + 1) + ")"))`). -/
def processChildren (check : DOMElement → String → List StyleMismatch) :
    List DOMElement → String → ℕ → List StyleMismatch
  | [], _, _ => []
  | child :: rest, selector, i =>
    processElementTree check child
        (selector ++ " > :nth-child(" ++ toString i ++ ")")
      ++ processChildren check rest selector (i + 1)
termination_by l _ _ => sizeOf l

end

/-- Top-level traversal (`domTree.forEach((element, index) =>
processElement(element, "body > :nth-child(" + (index + 1) + ")"))`). -/
def processDomTree (check : DOMElement → String → List StyleMismatch) :
    List DOMElement → ℕ → List StyleMismatch
  | [], _ => []
  | element :: rest, i =>
    processElementTree check element ("body > :nth-child(" ++ toString i ++ ")")
      ++ processDomTree check rest (i + 1)

/-- `ComparisonEngine.compareColors`: early return on an empty token list. -/
def compareColors (lib : ChromaLib) (domTree : List DOMElement)
    (figmaColors : List ColorToken) : List StyleMismatch :=
  if figmaColors.length = 0 then []
  else processDomTree (colorCheck lib figmaColors) domTree 1

/-- `ComparisonEngine.compareTypography`: early return on an empty token
list. -/
def compareTypography (domTree : List DOMElement)
    (figmaTypography : List TypographyToken) : List StyleMismatch :=
  if figmaTypography.length = 0 then []
  else processDomTree (typographyCheck figmaTypography) domTree 1

/-- `ComparisonEngine.compareSpacing`: early return on an empty token list;
otherwise the token values are projected out once and used by every check. -/
def compareSpacing (domTree : List DOMElement)
    (figmaSpacing : List SpacingToken) : List StyleMismatch :=
  if figmaSpacing.length = 0 then []
  else processDomTree (spacingCheck (figmaSpacing.map SpacingToken.value)) domTree 1

/-- Prefix test on character lists (used to model `String.prototype`
substring search). -/
def listStarts : List Char → List Char → Bool
  | _, [] => true
  | [], _ :: _ => false
  | c :: cs, d :: ds => c == d && listStarts cs ds

/-- JavaScript `s.startsWith(pre)` (structural implementation on character
lists). -/
def jsStartsWith (s pre : String) : Bool := listStarts s.data pre.data

/-- Occurrence test on character lists. -/
def charListIncludes (search : List Char) : List Char → Bool
  | [] => listStarts [] search
  | c :: rest => listStarts (c :: rest) search || charListIncludes search rest

/-- JavaScript `s.includes(search)`. -/
def jsIncludes (s search : String) : Bool :=
  charListIncludes search.data s.data

/-- The depth-first search of `findMatchingElement`: first element (in
pre-order) whose lower-cased id or class list contains the lower-cased
component name as a substring. -/
def findInTree (componentName : String) : List DOMElement → Option DOMElement
  | [] => none
  | element :: rest =>
    let elementId := (element.id.map String.toLower).getD ""
    let elementClass := (element.className.map String.toLower).getD ""
    if jsIncludes elementId componentName || jsIncludes elementClass componentName then
      some element
    else
      match findInTree componentName element.children with
      | some found => some found
      | none => findInTree componentName rest
termination_by l => sizeOf l
decreasing_by
  · cases element; simp; omega
  · simp

/-- `ComparisonEngine.findMatchingElement`. -/
def findMatchingElement (domTree : List DOMElement)
    (figmaComponent : FigmaComponent) : Option DOMElement :=
  findInTree figmaComponent.name.toLower domTree

/-- `ComparisonEngine.getCategoryForProperty`. -/
def getCategoryForProperty (property : String) : MismatchCategory :=
  if property = "color" ∨ property = "backgroundColor" then .color
  else if property = "fontSize" ∨ property = "fontFamily" ∨ property = "fontWeight"
      ∨ property = "lineHeight" ∨ property = "letterSpacing" then .typography
  else if property = "margin" ∨ property = "padding" ∨ property = "gap"
      ∨ jsStartsWith property "margin" ∨ jsStartsWith property "padding" then .spacing
  else if property = "borderRadius" ∨ property = "borderWidth"
      ∨ property = "borderColor" then .border
  else if property = "width" ∨ property = "height" then .size
  else if property = "textAlign" ∨ property = "justifyContent"
      ∨ property = "alignItems" then .alignment
  else .layout

/-- One property diff of `compareElementStyles`: both sides must be truthy
strings, both are put through `parseFloat(...) || 0`, and a difference past
the spacing tolerance is reported with unconditional `major` severity.  Each
side is the pair (truthiness, parsed-or-0 value) of the underlying string. -/
def elementStyleCheck (eref : ElementRef) (componentName propName : String)
    (expected actual : Bool × ℚ) : List StyleMismatch :=
  if expected.1 && actual.1 then
    if THRESHOLDS.spacing.pixels < |expected.2 - actual.2| then
      [{ category := getCategoryForProperty propName, property := propName,
         expectedValue := .px expected.2, actualValue := .px actual.2,
         element := eref, figmaComponent := some componentName,
         deviation := (|expected.2 - actual.2| : ℚ), severity := .major }]
    else []
  else []

/-- The (truthiness, `parseFloat || 0`) view of a numeric style property. -/
def NumProp.view (p : NumProp) : Bool × ℚ := (p.isTruthy, p.parseOr0)

/-- The same view of the modelled `fontWeight` field. -/
def fontWeightView (p : Option ℚ) : Bool × ℚ := (p.isSome, p.getD 0)

/-- The same view of the `lineHeight` field (`"normal"` is truthy and parses
to `NaN`, hence `0`). -/
def lineHeightView (p : LineHeightProp) : Bool × ℚ := (p.isTruthy, p.parseOr0)

/-- `ComparisonEngine.compareElementStyles`: the fixed property loop
`['fontSize', 'fontWeight', 'lineHeight', 'padding', 'margin',
'borderRadius']` unrolled in order. -/
def compareElementStyles (element : DOMElement) (figmaComponent : FigmaComponent)
    (expectedStyles : ComputedStyleData) : List StyleMismatch :=
  let selector := buildSelector element ""
  let eref := mkElementRef element selector
  let actualStyles := element.computedStyles
  elementStyleCheck eref figmaComponent.name "fontSize"
      expectedStyles.fontSize.view actualStyles.fontSize.view
    ++ elementStyleCheck eref figmaComponent.name "fontWeight"
      (fontWeightView expectedStyles.fontWeight) (fontWeightView actualStyles.fontWeight)
    ++ elementStyleCheck eref figmaComponent.name "lineHeight"
      (lineHeightView expectedStyles.lineHeight) (lineHeightView actualStyles.lineHeight)
    ++ elementStyleCheck eref figmaComponent.name "padding"
      expectedStyles.padding.view actualStyles.padding.view
    ++ elementStyleCheck eref figmaComponent.name "margin"
      expectedStyles.margin.view actualStyles.margin.view
    ++ elementStyleCheck eref figmaComponent.name "borderRadius"
      expectedStyles.borderRadius.view actualStyles.borderRadius.view

/-- `ComparisonEngine.compareComponents`: for each component, diff the first
name-matching element (when the component carries styles). -/
def compareComponents (domTree : List DOMElement)
    (figmaComponents : List FigmaComponent) : List StyleMismatch :=
  figmaComponents.flatMap (fun fc =>
    match findMatchingElement domTree fc with
    | some matchingElement =>
      match fc.styles with
      | some st => compareElementStyles matchingElement fc st
      | none => []
    | none => [])

/-- Points deducted per mismatch by severity in `calculateCategoryScores`. -/
def severityDeduction : MismatchSeverity → ℚ
  | .critical => 15
  | .major => 10
  | .minor => 5
  | .info => 2

/-- `ComparisonEngine.calculateCategoryScores`: per category, `100` when there
is no mismatch, otherwise `max 0 (100 - Σ deductions)`. -/
def calculateCategoryScores (mismatches : List StyleMismatch) :
    MismatchCategory → ℚ := fun category =>
  let categoryMismatches := mismatches.filter (fun m => m.category == category)
  if categoryMismatches.isEmpty then 100
  else
    let deduction := categoryMismatches.foldl
      (fun d m => d + severityDeduction m.severity) 0
    max 0 (100 - deduction)

/-- The fixed category-weight map of `calculateOverallScore` (the `|| 0.1`
fallback of the source is dead code here, as the score map built by
`calculateCategoryScores` always contains all seven categories). -/
def ComparisonEngine.weights : MismatchCategory → ℚ
  | .color => 0.2
  | .typography => 0.2
  | .spacing => 0.15
  | .layout => 0.15
  | .border => 0.1
  | .alignment => 0.1
  | .size => 0.1

/-- The categories in the order `calculateCategoryScores` inserts them, which
is also the `Object.entries` iteration order in `calculateOverallScore`. -/
def categoriesList : List MismatchCategory :=
  [.color, .typography, .spacing, .layout, .border, .alignment, .size]

/-- `ComparisonEngine.calculateOverallScore`:
`Math.round(weightedSum / totalWeight)` over the entries of the score map
(JavaScript `Math.round` is `⌊x + 1/2⌋`, which is Mathlib's `round`). -/
def calculateOverallScore (categoryScores : MismatchCategory → ℚ) : ℤ :=
  let acc := categoriesList.foldl
    (fun (a : ℚ × ℚ) c =>
      (a.1 + categoryScores c * ComparisonEngine.weights c,
       a.2 + ComparisonEngine.weights c))
    (0, 0)
  round (acc.1 / acc.2)

/-- The severity tally of `calculateSummary`. -/
structure MismatchSummary where
  total : ℕ
  critical : ℕ
  major : ℕ
  minor : ℕ
  info : ℕ
deriving DecidableEq, Repr

/-- `ComparisonEngine.calculateSummary`. -/
def calculateSummary (mismatches : List StyleMismatch) : MismatchSummary :=
  ⟨mismatches.length,
   (mismatches.filter (fun m => m.severity == .critical)).length,
   (mismatches.filter (fun m => m.severity == .major)).length,
   (mismatches.filter (fun m => m.severity == .minor)).length,
   (mismatches.filter (fun m => m.severity == .info)).length⟩

/-- The result of one comparison run (`ComparisonResult` in `src/types`;
the wall-clock `timestamp` field is omitted). -/
structure ComparisonResult where
  overallScore : ℤ
  categoryScores : MismatchCategory → ℚ
  mismatches : List StyleMismatch
  summary : MismatchSummary

/-- `ComparisonEngine.compare`: the three token-based passes in order, then
the component pass when both components and elements are present, then the
scores. -/
def ComparisonEngine.compare (lib : ChromaLib) (webAnalysis : WebAnalysisResult)
    (figmaAnalysis : FigmaAnalysisResult) : ComparisonResult :=
  let domTree := webAnalysis.domTree
  let ms :=
    compareColors lib domTree figmaAnalysis.designTokens.colors
      ++ compareTypography domTree figmaAnalysis.designTokens.typography
      ++ compareSpacing domTree figmaAnalysis.designTokens.spacing
      ++ (if 0 < figmaAnalysis.components.length ∧ 0 < domTree.length then
            compareComponents domTree figmaAnalysis.components
          else [])
  let categoryScores := calculateCategoryScores ms
  { overallScore := calculateOverallScore categoryScores
    categoryScores := categoryScores
    mismatches := ms
    summary := calculateSummary ms }

/-- An axis-aligned diff region (`BoundingBox` in `src/types`). -/
structure BoundingBox where
  x : ℕ
  y : ℕ
  width : ℕ
  height : ℕ
deriving DecidableEq, Repr

/-- `VisualDiffEngine.regionsOverlapOrNear`: bounding boxes overlap or lie
within `threshold` pixels of each other. -/
def regionsOverlapOrNear (a b : BoundingBox) (threshold : ℕ) : Bool :=
  let aRight := a.x + a.width
  let aBottom := a.y + a.height
  let bRight := b.x + b.width
  let bBottom := b.y + b.height
  !(decide (aRight + threshold < b.x) || decide (bRight + threshold < a.x) ||
    decide (aBottom + threshold < b.y) || decide (bBottom + threshold < a.y))

/-- `VisualDiffEngine.mergeRegions`: bounding box of the union. -/
def mergeRegions (a b : BoundingBox) : BoundingBox :=
  let x := min a.x b.x
  let y := min a.y b.y
  let right := max (a.x + a.width) (b.x + b.width)
  let bottom := max (a.y + a.height) (b.y + b.height)
  ⟨x, y, right - x, bottom - y⟩

/-- Enumeration with indices from `n` (used in place of JavaScript array
indexing). -/
def enumFromL (n : ℕ) : List α → List (ℕ × α)
  | [] => []
  | x :: xs => (n, x) :: enumFromL (n + 1) xs

/-- One iteration of the inner `for (j ...)` scan of `mergeNearbyRegions`:
skip used indices, absorb regions near the current one.  The accumulator is
(current, used, changed). -/
def absorbStep (threshold : ℕ) (acc : BoundingBox × List ℕ × Bool)
    (jr : ℕ × BoundingBox) : BoundingBox × List ℕ × Bool :=
  if jr.1 ∈ acc.2.1 then acc
  else if regionsOverlapOrNear acc.1 jr.2 threshold then
    (mergeRegions acc.1 jr.2, jr.1 :: acc.2.1, true)
  else acc

/-- One full `for (j = 0; ...)` pass of `mergeNearbyRegions`' `while` loop. -/
def absorbPass (scan : List (ℕ × BoundingBox)) (threshold : ℕ)
    (current : BoundingBox) (used : List ℕ) : BoundingBox × List ℕ × Bool :=
  scan.foldl (absorbStep threshold) (current, used, false)

/-- The `while (changed)` loop of `mergeNearbyRegions`.  The fuel passed by
`mergeNearbyAux` is `|regions| + 1`, which is always sufficient: every pass
with `changed = true` marks at least one fresh index used, so after at most
`|regions|` such passes a pass leaves `changed = false` and the loop exits. -/
def innerMergeLoop (scan : List (ℕ × BoundingBox)) (threshold : ℕ) :
    ℕ → BoundingBox → List ℕ → BoundingBox × List ℕ
  | 0, current, used => (current, used)
  | fuel + 1, current, used =>
    match absorbPass scan threshold current used with
    | (c, u, true) => innerMergeLoop scan threshold fuel c u
    | (c, u, false) => (c, u)

/-- The outer `for (i ...)` loop of `mergeNearbyRegions`: take each unused
region, mark it used, grow it to a fixed point, and emit it. -/
def mergeNearbyAux (scan : List (ℕ × BoundingBox)) (threshold fuel : ℕ) :
    List (ℕ × BoundingBox) → List ℕ → List BoundingBox
  | [], _ => []
  | (i, r) :: rest, used =>
    if i ∈ used then mergeNearbyAux scan threshold fuel rest used
    else
      let s := innerMergeLoop scan threshold fuel r (i :: used)
      s.1 :: mergeNearbyAux scan threshold fuel rest s.2

/-- `VisualDiffEngine.mergeNearbyRegions`. -/
def mergeNearbyRegions (regions : List BoundingBox) (threshold : ℕ) :
    List BoundingBox :=
  if regions.length ≤ 1 then regions
  else
    mergeNearbyAux (enumFromL 0 regions) threshold (regions.length + 1)
      (enumFromL 0 regions) []

/-- One RGBA pixel (byte values as naturals). -/
abbrev Pixel := ℕ × ℕ × ℕ × ℕ

/-- A decoded raster image (`PNG`): width, height, and the row-major pixel
array. -/
structure PixelBuffer where
  width : ℕ
  height : ℕ
  data : List Pixel
deriving DecidableEq, Repr

/-- Pixel lookup `data[(width * y + x) << 2]`. -/
def PixelBuffer.get (img : PixelBuffer) (x y : ℕ) : Pixel :=
  img.data.getD (y * img.width + x) (0, 0, 0, 0)

/-- `VisualDiffEngine.resizeImage`: a `targetWidth × targetHeight` canvas
filled with opaque white, with the source copied into the top-left corner
(canvas extension, not scaling). -/
def resizeImage (img : PixelBuffer) (targetWidth targetHeight : ℕ) :
    PixelBuffer :=
  if img.width = targetWidth ∧ img.height = targetHeight then img
  else
    { width := targetWidth, height := targetHeight,
      data := (List.range (targetWidth * targetHeight)).map (fun i =>
        let x := i % targetWidth
        let y := i / targetWidth
        if x < img.width ∧ y < img.height then img.get x y
        else (255, 255, 255, 255)) }

/-- `VisualDiffEngine.normalizeImageSizes`: identical dimensions pass through;
otherwise both images are extended to the maximum dimensions. -/
def normalizeImageSizes (img1 img2 : PixelBuffer) :
    ℕ × ℕ × PixelBuffer × PixelBuffer :=
  let width := max img1.width img2.width
  let height := max img1.height img2.height
  if img1.width = img2.width ∧ img1.height = img2.height then
    (width, height, img1, img2)
  else
    (width, height, resizeImage img1 width height, resizeImage img2 width height)

/-- Options forwarded to `pixelmatch` (`VisualDiffOptions` merged with
`DEFAULT_OPTIONS`). -/
structure PixelmatchOptions where
  threshold : ℚ := 0.1
  includeAA : Bool := false
  alpha : ℚ := 0.1
  diffColor : ℕ × ℕ × ℕ := (255, 0, 0)
  diffColorAlt : ℕ × ℕ × ℕ := (255, 255, 0)

/-- Modelled from the spec (§4.4 step 3) and the published algorithm of the
external `pixelmatch` library (a third-party dependency, not part of this
repository): alpha-blend a channel toward white. -/
def blendChannel (c a : ℚ) : ℚ := 255 + (c - 255) * a / 255

/-- Modelled from the spec: luma of the YIQ colour space used by
`pixelmatch`. -/
def rgb2y (r g b : ℚ) : ℚ := r * 0.29889531 + g * 0.58662247 + b * 0.11448223

/-- Modelled from the spec: YIQ in-phase component. -/
def rgb2i (r g b : ℚ) : ℚ := r * 0.59597799 - g * 0.27417610 - b * 0.32180189

/-- Modelled from the spec: YIQ quadrature component. -/
def rgb2q (r g b : ℚ) : ℚ := r * 0.21147017 - g * 0.52261711 + b * 0.31114694

/-- Modelled from the spec: the perceptual per-pixel difference of
`pixelmatch` (zero for byte-identical pixels, otherwise a weighted squared
YIQ distance of the alpha-blended colours). -/
def colorDelta (p1 p2 : Pixel) : ℚ :=
  if p1 = p2 then 0
  else
    let (r1, g1, b1, a1) := p1
    let (r2, g2, b2, a2) := p2
    let f1 : ℚ := (a1 : ℚ) / 255
    let f2 : ℚ := (a2 : ℚ) / 255
    let r1' : ℚ := if a1 < 255 then blendChannel r1 f1 else r1
    let g1' : ℚ := if a1 < 255 then blendChannel g1 f1 else g1
    let b1' : ℚ := if a1 < 255 then blendChannel b1 f1 else b1
    let r2' : ℚ := if a2 < 255 then blendChannel r2 f2 else r2
    let g2' : ℚ := if a2 < 255 then blendChannel g2 f2 else g2
    let b2' : ℚ := if a2 < 255 then blendChannel b2 f2 else b2
    let y := rgb2y r1' g1' b1' - rgb2y r2' g2' b2'
    let i := rgb2i r1' g1' b1' - rgb2i r2' g2' b2'
    let q := rgb2q r1' g1' b1' - rgb2q r2' g2' b2'
    0.5053 * y ^ 2 + 0.299 * i ^ 2 + 0.1957 * q ^ 2

/-- Modelled from the spec: the classification threshold of `pixelmatch`
(`maxDelta = 35215 * threshold²`). -/
def pixelmatchMaxDelta (threshold : ℚ) : ℚ := 35215 * threshold ^ 2

/-- Modelled from the spec: the internals of the `pixelmatch` library that
this embedding leaves abstract — its anti-aliasing detector (a function of the
two buffers and the pixel index) and its grayscale rendering of unchanged
pixels in the diff buffer. -/
structure PixelmatchLib where
  aaExempt : List Pixel → List Pixel → ℕ → Bool
  grayPixel : ℚ → Pixel → Pixel

/-- Modelled from the spec: whether `pixelmatch` classifies a pixel pair as
differing. -/
def pixelDiffers (threshold : ℚ) (p q : Pixel) : Bool :=
  decide (pixelmatchMaxDelta threshold < colorDelta p q)

/-- Modelled from the spec: the mismatched-pixel count returned by
`pixelmatch` — differing pixels, excluding anti-aliasing exemptions unless
`includeAA` is set. -/
def pixelmatchCount (pm : PixelmatchLib) (opts : PixelmatchOptions)
    (d1 d2 : List Pixel) : ℕ :=
  ((enumFromL 0 (d1.zip d2)).filter (fun ip =>
      pixelDiffers opts.threshold ip.2.1 ip.2.2 &&
      !(!opts.includeAA && pm.aaExempt d1 d2 ip.1))).length

/-- Modelled from the spec: the diff buffer written by `pixelmatch` — the diff
colour on counted differences, the alternate colour on anti-aliasing
exemptions, and a blended grayscale copy-through elsewhere. -/
def pixelmatchDiff (pm : PixelmatchLib) (opts : PixelmatchOptions)
    (d1 d2 : List Pixel) : List Pixel :=
  (enumFromL 0 (d1.zip d2)).map (fun ip =>
    if pixelDiffers opts.threshold ip.2.1 ip.2.2 then
      if !opts.includeAA && pm.aaExempt d1 d2 ip.1 then
        (opts.diffColorAlt.1, opts.diffColorAlt.2.1, opts.diffColorAlt.2.2, 255)
      else (opts.diffColor.1, opts.diffColor.2.1, opts.diffColor.2.2, 255)
    else pm.grayPixel opts.alpha ip.2.1)

/-- Whether a diff-buffer pixel carries the diff colour (solid red), the test
used by `findDiffAreas` and `floodFillRegion`. -/
def isDiffPixel (p : Pixel) : Bool :=
  decide (p.1 = 255) && decide (p.2.1 = 0) && decide (p.2.2.1 = 0)

/-- The mutable state of `floodFillRegion`: the incremental bounding box, the
pixel count, and the shared visited set (keys `y * width + x`). -/
structure FloodState where
  minX : ℕ
  maxX : ℕ
  minY : ℕ
  maxY : ℕ
  pixelCount : ℕ
  visited : List ℕ
deriving DecidableEq, Repr

/-- The `while (stack.length > 0)` loop of `floodFillRegion`, with the
explicit stack (top = head) holding possibly-negative coordinates, the
visited-set check, the 4-connected pushes in source order, and the
100000-frame stack cap that `break`s out of the loop.  The fuel passed by
`floodFillRegion` (`4·width·height + 2`) always suffices: each iteration pops
one frame, and at most `1 + 4·width·height` frames are ever pushed (four per
newly-visited pixel plus the seed). -/
def floodFillLoop (img : PixelBuffer) : ℕ → List (ℤ × ℤ) → FloodState → FloodState
  | 0, _, st => st
  | _ + 1, [], st => st
  | fuel + 1, (x, y) :: stack, st =>
    if x < 0 ∨ (img.width : ℤ) ≤ x ∨ y < 0 ∨ (img.height : ℤ) ≤ y then
      floodFillLoop img fuel stack st
    else
      let xn := x.toNat
      let yn := y.toNat
      let pixelKey := yn * img.width + xn
      if pixelKey ∈ st.visited then floodFillLoop img fuel stack st
      else if ¬ isDiffPixel (img.get xn yn) then floodFillLoop img fuel stack st
      else
        let st' : FloodState :=
          ⟨min st.minX xn, max st.maxX xn, min st.minY yn, max st.maxY yn,
           st.pixelCount + 1, pixelKey :: st.visited⟩
        let stack' : List (ℤ × ℤ) :=
          (x, y - 1) :: (x, y + 1) :: (x - 1, y) :: (x + 1, y) :: stack
        if 100000 < stack'.length then st'
        else floodFillLoop img fuel stack' st'

/-- `VisualDiffEngine.floodFillRegion`: flood fill from a seed, returning the
bounding box (or `none` for regions below the 10-pixel noise floor) and the
updated visited set. -/
def floodFillRegion (img : PixelBuffer) (startX startY : ℕ)
    (visited : List ℕ) : Option BoundingBox × List ℕ :=
  let st := floodFillLoop img (4 * img.width * img.height + 2)
    [((startX : ℤ), (startY : ℤ))]
    ⟨startX, startX, startY, startY, 0, visited⟩
  (if st.pixelCount < 10 then none
   else some ⟨st.minX, st.minY, st.maxX - st.minX + 1, st.maxY - st.minY + 1⟩,
   st.visited)

/-- The row-major double scan of `findDiffAreas` over all pixels, seeding a
flood fill at every unvisited diff-coloured pixel. -/
def findDiffAreasScan (img : PixelBuffer) : List BoundingBox :=
  (((List.range img.height).flatMap (fun y =>
      (List.range img.width).map (fun x => (x, y)))).foldl
    (fun (acc : List ℕ × List BoundingBox) xy =>
      let pixelKey := xy.2 * img.width + xy.1
      if pixelKey ∉ acc.1 ∧ isDiffPixel (img.get xy.1 xy.2) then
        match floodFillRegion img xy.1 xy.2 acc.1 with
        | (some region, visited') => (visited', acc.2 ++ [region])
        | (none, visited') => (visited', acc.2)
      else acc)
    ([], [])).2

/-- `VisualDiffEngine.findDiffAreas`: early exit when nothing mismatched,
otherwise flood-fill extraction followed by region merging at 20px. -/
def findDiffAreas (diffImage : PixelBuffer) (mismatchedPixels : ℕ) :
    List BoundingBox :=
  if mismatchedPixels = 0 then []
  else mergeNearbyRegions (findDiffAreasScan diffImage) 20

/-- `Math.round(x * 100) / 100` (two-decimal rounding). -/
def round2 (x : ℚ) : ℚ := ((round (x * 100) : ℤ) : ℚ) / 100

/-- The result of one visual diff (`VisualDiffResult` in `src/types`); the
diff buffer stands in for its base64 encoding. -/
structure VisualDiffResult where
  diffImage : List Pixel
  matchPercentage : ℚ
  mismatchedPixels : ℕ
  totalPixels : ℕ
  diffAreas : List BoundingBox

/-- `VisualDiffEngine.compare` on already-decoded images (base64 decoding —
whose failure is the engine's only fatal error — happens before this logic
and is not modelled). -/
def VisualDiffEngine.compare (pm : PixelmatchLib) (img1 img2 : PixelBuffer)
    (opts : PixelmatchOptions) : VisualDiffResult :=
  let n := normalizeImageSizes img1 img2
  let width := n.1
  let height := n.2.1
  let resizedImg1 := n.2.2.1
  let resizedImg2 := n.2.2.2
  let diff := pixelmatchDiff pm opts resizedImg1.data resizedImg2.data
  let mismatchedPixels := pixelmatchCount pm opts resizedImg1.data resizedImg2.data
  let totalPixels := width * height
  let matchPercentage :=
    (((totalPixels : ℚ) - (mismatchedPixels : ℚ)) / (totalPixels : ℚ)) * 100
  { diffImage := diff
    matchPercentage := round2 matchPercentage
    mismatchedPixels := mismatchedPixels
    totalPixels := totalPixels
    diffAreas := findDiffAreas ⟨width, height, diff⟩ mismatchedPixels }

section MinFold

variable {α : Type*}

/-- The closest-candidate scan shared by `findColorMismatch`,
`findClosestTypography` and `findSpacingMismatch`: strict improvement keeps
the first candidate attaining the minimum. -/
def minFold (f : α → ℚ) (init : α × ℚ) (l : List α) : α × ℚ :=
  l.foldl (fun acc y => if f y < acc.2 then (y, f y) else acc) init

/-- The minimum of `f` over `x :: l`. -/
def minimumOn (f : α → ℚ) (x : α) (l : List α) : ℚ :=
  l.foldl (fun m y => min m (f y)) (f x)

theorem minFold_cons (f : α → ℚ) (i : α × ℚ) (y : α) (l : List α) :
    minFold f i (y :: l) = minFold f (if f y < i.2 then (y, f y) else i) l := rfl

theorem minFold_self_cons (f : α → ℚ) (x : α) (l : List α) :
    minFold f (x, f x) (x :: l) = minFold f (x, f x) l := by
  simp [minFold_cons]

theorem foldlMin_le_init (f : α → ℚ) :
    ∀ (l : List α) (m : ℚ), l.foldl (fun m' y => min m' (f y)) m ≤ m
  | [], _ => le_refl _
  | y :: l, m =>
    le_trans (foldlMin_le_init f l (min m (f y))) (min_le_left _ _)

theorem foldlMin_le_mem (f : α → ℚ) :
    ∀ {l : List α} {y : α}, y ∈ l → ∀ (m : ℚ),
      l.foldl (fun m' z => min m' (f z)) m ≤ f y := by
  intro l
  induction l with
  | nil => intro y hy; cases hy
  | cons z l ih =>
    intro y hy m
    rcases List.mem_cons.1 hy with h | h
    · subst h
      exact le_trans (foldlMin_le_init f l (min m (f y))) (min_le_right _ _)
    · exact ih h (min m (f z))

theorem minFold_snd (f : α → ℚ) :
    ∀ (l : List α) (x : α) (m : ℚ),
      (minFold f (x, m) l).2 = l.foldl (fun m' z => min m' (f z)) m
  | [], _, _ => rfl
  | y :: l, x, m => by
    rw [minFold_cons]
    by_cases h : f y < m
    · simp only [h, if_pos]
      rw [minFold_snd f l y (f y), List.foldl_cons]
      have : min m (f y) = f y := min_eq_right h.le
      rw [this]
    · simp only [h, if_neg, not_false_iff]
      rw [minFold_snd f l x m, List.foldl_cons]
      have : min m (f y) = m := min_eq_left (not_lt.1 h)
      rw [this]

theorem minFold_snd_eq_minimumOn (f : α → ℚ) (x : α) (l : List α) :
    (minFold f (x, f x) l).2 = minimumOn f x l :=
  minFold_snd f l x (f x)

theorem minimumOn_le (f : α → ℚ) (x : α) (l : List α) :
    ∀ y ∈ x :: l, minimumOn f x l ≤ f y := by
  intro y hy
  rcases List.mem_cons.1 hy with h | h
  · subst h; exact foldlMin_le_init f l (f y)
  · exact foldlMin_le_mem f h (f x)

theorem minFold_find? (f : α → ℚ) :
    ∀ (l : List α) (x : α),
      (x :: l).find? (fun y => decide (f y = (minFold f (x, f x) l).2)) =
        some (minFold f (x, f x) l).1
  | [], x => by simp [minFold]
  | y :: l, x => by
    rw [minFold_cons]
    by_cases h : f y < f x
    · simp only [h, if_pos]
      have hle : (minFold f (y, f y) l).2 ≤ f y := by
        rw [minFold_snd]; exact foldlMin_le_init f l (f y)
      have hx : ¬ (f x = (minFold f (y, f y) l).2) :=
        ne_of_gt (lt_of_le_of_lt hle h)
      rw [List.find?_cons_of_neg _ (by simpa using hx)]
      exact minFold_find? f l y
    · simp only [h, if_neg, not_false_iff]
      have hBle : (minFold f (x, f x) l).2 ≤ f x := by
        rw [minFold_snd]; exact foldlMin_le_init f l (f x)
      by_cases hxB : f x = (minFold f (x, f x) l).2
      · have h1 := minFold_find? f l x
        rw [List.find?_cons_of_pos _ (by simpa using hxB)] at h1 ⊢
        exact h1
      · have hlt : (minFold f (x, f x) l).2 < f x := lt_of_le_of_ne hBle (Ne.symm hxB)
        have hy : ¬ (f y = (minFold f (x, f x) l).2) :=
          ne_of_gt (lt_of_lt_of_le hlt (not_lt.1 h))
        have h1 := minFold_find? f l x
        rw [List.find?_cons_of_neg _ (by simpa using hxB)] at h1
        rw [List.find?_cons_of_neg _ (by simpa using hxB),
            List.find?_cons_of_neg _ (by simpa using hy)]
        exact h1

theorem minFold_fst_mem (f : α → ℚ) (l : List α) (x : α) :
    (minFold f (x, f x) l).1 ∈ x :: l :=
  List.mem_of_find?_eq_some (minFold_find? f l x)

theorem minFold_fst_val (f : α → ℚ) (l : List α) (x : α) :
    f (minFold f (x, f x) l).1 = (minFold f (x, f x) l).2 := by
  have := List.find?_some (minFold_find? f l x)
  simpa using this

end MinFold

/-- Delta-E distance from the parsed actual colour to a token's parsed hex
(meaningful when the token hex parses, which the theorems below assume). -/
def tokDist (lib : ChromaLib) (ac : Color) (t : ColorToken) : ℚ :=
  lib.deltaE ac ((lib.parse t.hex).getD 0)

theorem colorFoldl_eq (lib : ChromaLib) (ac : Color) :
    ∀ (l : List ColorToken), (∀ t ∈ l, (lib.parse t.hex).isSome) →
    ∀ (a : ColorToken) (m : ℚ),
      l.foldl (colorStep lib ac) (a, some m) =
        ((minFold (tokDist lib ac) (a, m) l).1,
          some ((minFold (tokDist lib ac) (a, m) l).2))
  | [], _, a, m => rfl
  | t :: l, hp, a, m => by
    obtain ⟨c, hc⟩ := Option.isSome_iff_exists.1 (hp t (List.mem_cons_self t l))
    have hd : tokDist lib ac t = lib.deltaE ac c := by simp [tokDist, hc]
    have hstep : colorStep lib ac (a, some m) t =
        if tokDist lib ac t < m then (t, some (tokDist lib ac t)) else (a, some m) := by
      simp [colorStep, hc, hd]
    have hp' : ∀ u ∈ l, (lib.parse u.hex).isSome :=
      fun u hu => hp u (List.mem_cons_of_mem _ hu)
    rw [List.foldl_cons, hstep, minFold_cons]
    by_cases h : tokDist lib ac t < m
    · simp only [h, if_pos]
      exact colorFoldl_eq lib ac l hp' t (tokDist lib ac t)
    · simp only [h, if_neg, not_false_iff]
      exact colorFoldl_eq lib ac l hp' a m

/-- C1: for a parseable actual colour and a non-empty collection of parseable
colour tokens, `findColorMismatch` reports a mismatch exactly when the
minimum Delta-E over the tokens exceeds the tolerance of 5; the reported
`expectedValue` is the hex of the first token (in iteration order) attaining
that minimum and the reported deviation is the minimum itself. -/
theorem C1_color_token_matcher (lib : ChromaLib) (actualColor : String)
    (ac : Color) (t0 : ColorToken) (rest : List ColorToken)
    (hac : lib.parse actualColor = some ac)
    (hparse : ∀ t ∈ t0 :: rest, (lib.parse t.hex).isSome) :
    ((∃ t ∈ t0 :: rest, tokDist lib ac t = minimumOn (tokDist lib ac) t0 rest) ∧
      ∀ t ∈ t0 :: rest, minimumOn (tokDist lib ac) t0 rest ≤ tokDist lib ac t) ∧
    (findColorMismatch lib actualColor (t0 :: rest) = none ↔
      minimumOn (tokDist lib ac) t0 rest ≤ THRESHOLDS.color.deltaE) ∧
    (THRESHOLDS.color.deltaE < minimumOn (tokDist lib ac) t0 rest →
      ∃ tmin, (t0 :: rest).find?
          (fun u => decide (tokDist lib ac u = minimumOn (tokDist lib ac) t0 rest)) =
          some tmin ∧
        findColorMismatch lib actualColor (t0 :: rest) =
          some ⟨tmin.hex, lib.hexUpper ac,
            (minimumOn (tokDist lib ac) t0 rest : WithTop ℚ)⟩) := by
  set f := tokDist lib ac with hf
  set μ := minimumOn f t0 rest with hμ
  have ht0 : (lib.parse t0.hex).isSome := hparse t0 (List.mem_cons_self t0 rest)
  obtain ⟨c0, hc0⟩ := Option.isSome_iff_exists.1 ht0
  have hrest : ∀ t ∈ rest, (lib.parse t.hex).isSome :=
    fun t ht => hparse t (List.mem_cons_of_mem _ ht)
  have hfold : (t0 :: rest).foldl (colorStep lib ac) (t0, none) =
      ((minFold f (t0, f t0) rest).1, some ((minFold f (t0, f t0) rest).2)) := by
    rw [List.foldl_cons]
    have hstep0 : colorStep lib ac (t0, none) t0 = (t0, some (f t0)) := by
      simp [colorStep, hc0, hf, tokDist]
    rw [hstep0]
    exact colorFoldl_eq lib ac rest hrest t0 (f t0)
  have hsnd : (minFold f (t0, f t0) rest).2 = μ := minFold_snd_eq_minimumOn f t0 rest
  have hfcm : findColorMismatch lib actualColor (t0 :: rest) =
      if μ ≤ THRESHOLDS.color.deltaE then none
      else some ⟨(minFold f (t0, f t0) rest).1.hex, lib.hexUpper ac, (μ : WithTop ℚ)⟩ := by
    rw [findColorMismatch, hac]
    simp only [hfold, hsnd]
  refine ⟨⟨⟨(minFold f (t0, f t0) rest).1, minFold_fst_mem f rest t0, by
      rw [minFold_fst_val f rest t0, hsnd]⟩,
    fun t ht => minimumOn_le f t0 rest t ht⟩, ?_, ?_⟩
  · rw [hfcm]
    by_cases h : μ ≤ THRESHOLDS.color.deltaE
    · simp [h]
    · simp [h]
  · intro h
    refine ⟨(minFold f (t0, f t0) rest).1, ?_, ?_⟩
    · have := minFold_find? f rest t0
      rw [hsnd] at this
      exact this
    · rw [hfcm, if_neg (not_le.2 h)]

/-- A concrete chroma-library instance for the witnesses: two colours, a
symmetric integer Delta-E table. -/
def libW : ChromaLib where
  parse := fun s => if s = "rgb(255, 0, 0)" then some 0
    else if s = "#00FF00" then some 1 else if s = "#FF0100" then some 2 else none
  deltaE := fun a b => if a = b then 0 else if a + b = 3 then 2 else 86
  hexUpper := fun _ => "#FF0000"

/-- Witness for C1 at a concrete input: red against the single green token,
minimum Delta-E 86 > 5, mismatch reported with the token's hex. -/
theorem C1_color_token_matcher_witness :
    ((∃ t ∈ [ColorToken.mk "primary" "#00FF00"],
        tokDist libW 0 t = minimumOn (tokDist libW 0) ⟨"primary", "#00FF00"⟩ []) ∧
      ∀ t ∈ [ColorToken.mk "primary" "#00FF00"],
        minimumOn (tokDist libW 0) ⟨"primary", "#00FF00"⟩ [] ≤ tokDist libW 0 t) ∧
    (findColorMismatch libW "rgb(255, 0, 0)" [⟨"primary", "#00FF00"⟩] = none ↔
      minimumOn (tokDist libW 0) ⟨"primary", "#00FF00"⟩ [] ≤ THRESHOLDS.color.deltaE) ∧
    (THRESHOLDS.color.deltaE < minimumOn (tokDist libW 0) ⟨"primary", "#00FF00"⟩ [] →
      ∃ tmin, ([ColorToken.mk "primary" "#00FF00"]).find?
          (fun u => decide (tokDist libW 0 u =
            minimumOn (tokDist libW 0) ⟨"primary", "#00FF00"⟩ [])) = some tmin ∧
        findColorMismatch libW "rgb(255, 0, 0)" [⟨"primary", "#00FF00"⟩] =
          some ⟨tmin.hex, libW.hexUpper 0,
            (minimumOn (tokDist libW 0) ⟨"primary", "#00FF00"⟩ [] : WithTop ℚ)⟩) :=
  C1_color_token_matcher libW "rgb(255, 0, 0)" 0 ⟨"primary", "#00FF00"⟩ []
    (by decide) (by decide)

theorem calculateOverallScore_eq (s : MismatchCategory → ℚ) :
    calculateOverallScore s =
      round ((0.2 : ℚ) * s .color + 0.2 * s .typography + 0.15 * s .spacing
        + 0.15 * s .layout + 0.1 * s .border + 0.1 * s .alignment + 0.1 * s .size) := by
  show round (_ / _) = _
  simp only [calculateOverallScore, categoriesList, ComparisonEngine.weights,
    List.foldl_cons, List.foldl_nil]
  norm_num
  congr 1
  ring

/-- C2: the overall score of every compare call is the weighted average of
the seven category scores with weights 0.20/0.20/0.15/0.15/0.10/0.10/0.10,
rounded to the nearest integer (`Math.round`), and those weights sum to
exactly 1 (the score map always contains all seven categories, so the
denominator is 1 and the average is just the weighted sum). -/
theorem C2_overall_score_weighted_average (lib : ChromaLib)
    (web : WebAnalysisResult) (figma : FigmaAnalysisResult) :
    (ComparisonEngine.compare lib web figma).overallScore =
      round ((0.2 : ℚ) * (ComparisonEngine.compare lib web figma).categoryScores .color
        + 0.2 * (ComparisonEngine.compare lib web figma).categoryScores .typography
        + 0.15 * (ComparisonEngine.compare lib web figma).categoryScores .spacing
        + 0.15 * (ComparisonEngine.compare lib web figma).categoryScores .layout
        + 0.1 * (ComparisonEngine.compare lib web figma).categoryScores .border
        + 0.1 * (ComparisonEngine.compare lib web figma).categoryScores .alignment
        + 0.1 * (ComparisonEngine.compare lib web figma).categoryScores .size) ∧
    ComparisonEngine.weights .color + ComparisonEngine.weights .typography
      + ComparisonEngine.weights .spacing + ComparisonEngine.weights .layout
      + ComparisonEngine.weights .border + ComparisonEngine.weights .alignment
      + ComparisonEngine.weights .size = 1 := by
  constructor
  · exact calculateOverallScore_eq _
  · norm_num [ComparisonEngine.weights]

theorem deduction_foldl (l : List StyleMismatch) : ∀ (a : ℚ),
    l.foldl (fun d m => d + severityDeduction m.severity) a =
      a + (15 * ((l.filter (fun m => m.severity == MismatchSeverity.critical)).length : ℚ)
         + 10 * ((l.filter (fun m => m.severity == MismatchSeverity.major)).length : ℚ)
         + 5 * ((l.filter (fun m => m.severity == MismatchSeverity.minor)).length : ℚ)
         + 2 * ((l.filter (fun m => m.severity == MismatchSeverity.info)).length : ℚ)) := by
  induction l with
  | nil => intro a; simp
  | cons m l ih =>
    intro a
    rw [List.foldl_cons, ih]
    cases hs : m.severity <;>
      simp [List.filter_cons, hs, severityDeduction, Nat.cast_add, Nat.cast_one] <;> ring

theorem calculateCategoryScores_eq (ms : List StyleMismatch) (c : MismatchCategory) :
    calculateCategoryScores ms c =
      max 0 (100 -
        (15 * ((ms.filter (fun m => m.severity == MismatchSeverity.critical
                  && m.category == c)).length : ℚ)
       + 10 * ((ms.filter (fun m => m.severity == MismatchSeverity.major
                  && m.category == c)).length : ℚ)
       + 5 * ((ms.filter (fun m => m.severity == MismatchSeverity.minor
                  && m.category == c)).length : ℚ)
       + 2 * ((ms.filter (fun m => m.severity == MismatchSeverity.info
                  && m.category == c)).length : ℚ))) := by
  have hff : ∀ s : MismatchSeverity,
      ms.filter (fun m => m.severity == s && m.category == c) =
        (ms.filter (fun m => m.category == c)).filter (fun m => m.severity == s) :=
    fun s => (List.filter_filter _ _).symm
  rw [calculateCategoryScores]
  by_cases h : (ms.filter (fun m => m.category == c)).isEmpty
  · have he : ms.filter (fun m => m.category == c) = [] := List.isEmpty_iff.1 h
    simp only [h, if_pos, hff, he, List.filter_nil, List.length_nil]
    norm_num
  · rw [if_neg h, deduction_foldl]
    simp only [hff]
    ring_nf

/-- C3: for every compare call and category, the category score is
`max 0 (100 − (15·critical + 10·major + 5·minor + 2·info))` over that
category's mismatches; in particular a category with no mismatches scores
exactly 100. -/
theorem C3_category_score (lib : ChromaLib) (web : WebAnalysisResult)
    (figma : FigmaAnalysisResult) (c : MismatchCategory) :
    ((ComparisonEngine.compare lib web figma).categoryScores c =
      max 0 (100 -
        (15 * (((ComparisonEngine.compare lib web figma).mismatches.filter
            (fun m => m.severity == MismatchSeverity.critical && m.category == c)).length : ℚ)
       + 10 * (((ComparisonEngine.compare lib web figma).mismatches.filter
            (fun m => m.severity == MismatchSeverity.major && m.category == c)).length : ℚ)
       + 5 * (((ComparisonEngine.compare lib web figma).mismatches.filter
            (fun m => m.severity == MismatchSeverity.minor && m.category == c)).length : ℚ)
       + 2 * (((ComparisonEngine.compare lib web figma).mismatches.filter
            (fun m => m.severity == MismatchSeverity.info && m.category == c)).length : ℚ)))) ∧
    (((ComparisonEngine.compare lib web figma).mismatches.filter
        (fun m => m.category == c)) = [] →
      (ComparisonEngine.compare lib web figma).categoryScores c = 100) := by
  constructor
  · exact calculateCategoryScores_eq _ c
  · intro h
    have heq : (ComparisonEngine.compare lib web figma).categoryScores c =
        calculateCategoryScores
          ((ComparisonEngine.compare lib web figma).mismatches) c := rfl
    rw [heq, calculateCategoryScores]
    simp [h]

/-- A trivially empty web analysis and token set used by several witnesses. -/
def webW : WebAnalysisResult := ⟨[]⟩

/-- Empty design tokens / components fixture. -/
def figmaW : FigmaAnalysisResult := ⟨⟨[], [], []⟩, []⟩

/-- Witness for C3 at a concrete input: with no mismatches at all, the colour
category score evaluates to 100. -/
theorem C3_category_score_witness :
    (ComparisonEngine.compare libW webW figmaW).categoryScores .color = 100 :=
  (C3_category_score libW webW figmaW .color).2 (by decide)

theorem regionsOverlapOrNear_symm (a b : BoundingBox) (th : ℕ) :
    regionsOverlapOrNear a b th = regionsOverlapOrNear b a th := by
  simp only [regionsOverlapOrNear]
  have h : ∀ p q r s : Bool, (!(p || q || r || s)) = (!(q || p || s || r)) := by decide
  exact h _ _ _ _

theorem absorbPass_of_none (scan : List (ℕ × BoundingBox)) (th : ℕ)
    (current : BoundingBox) (used : List ℕ)
    (h : ∀ jr ∈ scan, jr.1 ∈ used ∨ regionsOverlapOrNear current jr.2 th = false) :
    absorbPass scan th current used = (current, used, false) := by
  induction scan with
  | nil => rfl
  | cons jr rest ih =>
    have hstep : absorbStep th (current, used, false) jr = (current, used, false) := by
      rcases h jr (List.mem_cons_self jr rest) with hu | hn
      · simp [absorbStep, hu]
      · by_cases hu : jr.1 ∈ used <;> simp [absorbStep, hu, hn]
    have hrest : ∀ u ∈ rest, u.1 ∈ used ∨ regionsOverlapOrNear current u.2 th = false :=
      fun u hu => h u (List.mem_cons_of_mem _ hu)
    show (jr :: rest).foldl (absorbStep th) (current, used, false) = _
    rw [List.foldl_cons, hstep]
    exact ih hrest

theorem enumFromL_mem {α : Type*} {j : ℕ} {x : α} :
    ∀ {l : List α} {n : ℕ}, (j, x) ∈ enumFromL n l → n ≤ j ∧ l[j - n]? = some x := by
  intro l
  induction l with
  | nil => intro n h; cases h
  | cons y ys ih =>
    intro n h
    rcases List.mem_cons.1 h with h | h
    · have hj : j = n := congrArg Prod.fst h
      have hx : x = y := congrArg Prod.snd h
      subst hj; subst hx
      exact ⟨le_refl _, by simp⟩
    · obtain ⟨h1, h2⟩ := ih h
      refine ⟨le_trans (Nat.le_succ n) h1, ?_⟩
      have hidx : j - n = (j - (n + 1)) + 1 := by omega
      rw [hidx]
      simpa using h2

theorem mergeNearbyAux_id (regions : List BoundingBox) (th fuel : ℕ)
    (hsep : ∀ i j : ℕ, ∀ a b, i ≠ j → regions[i]? = some a → regions[j]? = some b →
      regionsOverlapOrNear a b th = false) :
    ∀ (l : List BoundingBox) (n : ℕ) (used : List ℕ),
      (∀ j x, (j, x) ∈ enumFromL n l → regions[j]? = some x) →
      (∀ k, k ∈ used ↔ k < n) →
      mergeNearbyAux (enumFromL 0 regions) th fuel (enumFromL n l) used = l := by
  intro l
  induction l with
  | nil => intro n used _ _; rfl
  | cons r l' ih =>
    intro n used hl hused
    have hn : regions[n]? = some r := hl n r (List.mem_cons_self _ _)
    have hnotused : n ∉ used := fun h => lt_irrefl n ((hused n).1 h)
    have habs : absorbPass (enumFromL 0 regions) th r (n :: used) = (r, n :: used, false) := by
      apply absorbPass_of_none
      intro jr hjr
      have hget : regions[jr.1]? = some jr.2 := by
        have := (enumFromL_mem (x := jr.2) (j := jr.1)
          (l := regions) (n := 0) (by simpa using hjr)).2
        simpa using this
      by_cases hj : jr.1 = n
      · exact Or.inl (by simp [hj])
      · exact Or.inr (hsep n jr.1 r jr.2 (fun he => hj he.symm) hn hget)
    have hinner : innerMergeLoop (enumFromL 0 regions) th fuel r (n :: used) =
        (r, n :: used) := by
      cases fuel with
      | zero => rfl
      | succ f => rw [innerMergeLoop, habs]
    show mergeNearbyAux _ th fuel ((n, r) :: enumFromL (n + 1) l') used = r :: l'
    rw [mergeNearbyAux, if_neg hnotused, hinner]
    have hl' : ∀ j x, (j, x) ∈ enumFromL (n + 1) l' → regions[j]? = some x :=
      fun j x h => hl j x (List.mem_cons_of_mem _ h)
    have hused' : ∀ k, k ∈ n :: used ↔ k < n + 1 := by
      intro k
      rw [List.mem_cons, hused k]
      omega
    show r :: mergeNearbyAux (enumFromL 0 regions) th fuel
        (enumFromL (n + 1) l') (n :: used) = r :: l'
    rw [ih (n + 1) (n :: used) hl' hused']

/-- C4 (amended): if no two distinct regions of the input overlap or lie
within the merge distance of each other, the merge pass returns the input
unchanged.  (The original claim — that the output of a merge always has this
property, making the merge idempotent — is refuted by
`C4_counterexample_merge_not_idempotent`.) -/
theorem C4_amended_separated_lists_are_fixed_points (regions : List BoundingBox)
    (threshold : ℕ)
    (hsep : regions.Pairwise (fun a b => regionsOverlapOrNear a b threshold = false)) :
    mergeNearbyRegions regions threshold = regions := by
  rw [mergeNearbyRegions]
  by_cases hlen : regions.length ≤ 1
  · rw [if_pos hlen]
  · rw [if_neg hlen]
    have hpw := List.pairwise_iff_getElem.1 hsep
    have hidx : ∀ i j : ℕ, ∀ a b, i ≠ j → regions[i]? = some a →
        regions[j]? = some b → regionsOverlapOrNear a b threshold = false := by
      intro i j a b hne ha hb
      obtain ⟨hi, ha'⟩ := List.getElem?_eq_some_iff.1 ha
      obtain ⟨hj, hb'⟩ := List.getElem?_eq_some_iff.1 hb
      rcases Nat.lt_or_ge i j with h | h
      · rw [← ha', ← hb']; exact hpw i j hi hj h
      · have hj' : j < i := lt_of_le_of_ne h (Ne.symm hne)
        rw [← ha', ← hb', regionsOverlapOrNear_symm]
        exact hpw j i hj hi hj'
    exact mergeNearbyAux_id regions threshold (regions.length + 1) hidx regions 0 []
      (fun j x h => by simpa using (enumFromL_mem h).2)
      (fun k => by simp)

/-- Witness for the amended C4: a concrete pairwise-separated two-region list
is returned unchanged. -/
theorem C4_amended_separated_lists_are_fixed_points_witness :
    mergeNearbyRegions [⟨0, 0, 10, 10⟩, ⟨100, 100, 5, 5⟩] 20 =
      [⟨0, 0, 10, 10⟩, ⟨100, 100, 5, 5⟩] :=
  C4_amended_separated_lists_are_fixed_points _ 20 (by decide)

/-- The three regions refuting idempotence of the region merge: the second and
third are near each other and merge into `⟨0, 0, 40, 70⟩`, whose bounding box
is near the first region even though neither original constituent was. -/
def c4Regions : List BoundingBox := [⟨0, 75, 5, 5⟩, ⟨0, 0, 10, 50⟩, ⟨30, 60, 10, 10⟩]

/-- Counterexample to C4 as stated: the merge output contains two regions
within the 20px merge distance of each other, and merging the output again
yields a different (shorter) list — the merge is not idempotent. -/
theorem C4_counterexample_merge_not_idempotent :
    mergeNearbyRegions c4Regions 20 = [⟨0, 75, 5, 5⟩, ⟨0, 0, 40, 70⟩] ∧
    regionsOverlapOrNear ⟨0, 75, 5, 5⟩ ⟨0, 0, 40, 70⟩ 20 = true ∧
    mergeNearbyRegions (mergeNearbyRegions c4Regions 20) 20 ≠
      mergeNearbyRegions c4Regions 20 := by
  refine ⟨by decide, by decide, by decide⟩

theorem findSpacingMismatch_eq (a v0 : ℚ) (rest : List ℚ) :
    findSpacingMismatch a (v0 :: rest) =
      if (minFold (fun v => |a - v|) (v0, |a - v0|) rest).2 ≤ THRESHOLDS.spacing.pixels
      then none
      else some ⟨(minFold (fun v => |a - v|) (v0, |a - v0|) rest).1,
        (minFold (fun v => |a - v|) (v0, |a - v0|) rest).2⟩ := by
  have hfold : (v0 :: rest).foldl
      (fun acc v => if |a - v| < acc.2 then (v, |a - v|) else acc) (v0, |a - v0|) =
      minFold (fun v => |a - v|) (v0, |a - v0|) rest :=
    minFold_self_cons (fun v => |a - v|) v0 rest
  simp only [findSpacingMismatch]
  rw [hfold]

/-- C5 (amended): for an element whose border-radius parses to a positive
value and a non-empty spacing-value collection, a `borderRadius` mismatch is
raised exactly when the minimum absolute difference to the candidates exceeds
the **4px spacing tolerance** (`findSpacingMismatch` filters at 4px before the
redundant 2px border-radius check, which any surviving deviation already
passes); the nearest candidate (first in iteration order on ties) is reported
as `expectedValue` and the minimum difference as the deviation.  (The original
claim — a mismatch exactly when the minimum exceeds the 2px border-radius
tolerance — is refuted by `C5_counterexample_border_radius_tolerance`.) -/
theorem C5_amended_border_radius_uses_spacing_tolerance (v : ℚ) (hv : 0 < v)
    (v0 : ℚ) (vrest : List ℚ) (styles : ComputedStyleData) (eref : ElementRef)
    (hbr : styles.borderRadius = some (some v)) :
    ((∃ w ∈ v0 :: vrest, |v - w| = minimumOn (fun w => |v - w|) v0 vrest) ∧
      ∀ w ∈ v0 :: vrest, minimumOn (fun w => |v - w|) v0 vrest ≤ |v - w|) ∧
    (borderRadiusCheck (v0 :: vrest) styles eref = [] ↔
      minimumOn (fun w => |v - w|) v0 vrest ≤ THRESHOLDS.spacing.pixels) ∧
    (THRESHOLDS.spacing.pixels < minimumOn (fun w => |v - w|) v0 vrest →
      ∃ w, (v0 :: vrest).find?
          (fun u => decide (|v - u| = minimumOn (fun w => |v - w|) v0 vrest)) = some w ∧
        borderRadiusCheck (v0 :: vrest) styles eref =
          [{ category := .border, property := "borderRadius",
             expectedValue := .px w, actualValue := .px v, element := eref,
             deviation := (minimumOn (fun w => |v - w|) v0 vrest : WithTop ℚ),
             severity := getBorderRadiusSeverity
               (minimumOn (fun w => |v - w|) v0 vrest) }]) := by
  have hsnd : (minFold (fun w => |v - w|) (v0, |v - v0|) vrest).2 =
      minimumOn (fun w => |v - w|) v0 vrest :=
    minFold_snd_eq_minimumOn (fun w => |v - w|) v0 vrest
  have hbrc : borderRadiusCheck (v0 :: vrest) styles eref =
      if 0 < v then
        match findSpacingMismatch v (v0 :: vrest) with
        | some m =>
          if THRESHOLDS.borderRadius.pixels < m.deviation then
            [{ category := .border, property := "borderRadius",
               expectedValue := .px m.expected, actualValue := .px v,
               element := eref, deviation := (m.deviation : ℚ),
               severity := getBorderRadiusSeverity m.deviation }]
          else []
        | none => []
      else [] := by
    rw [borderRadiusCheck, hbr]
    rfl
  have hcheck : borderRadiusCheck (v0 :: vrest) styles eref =
      if minimumOn (fun w => |v - w|) v0 vrest ≤ THRESHOLDS.spacing.pixels then []
      else
        if THRESHOLDS.borderRadius.pixels < minimumOn (fun w => |v - w|) v0 vrest then
          [{ category := .border, property := "borderRadius",
             expectedValue := .px (minFold (fun w => |v - w|) (v0, |v - v0|) vrest).1,
             actualValue := .px v, element := eref,
             deviation := (minimumOn (fun w => |v - w|) v0 vrest : WithTop ℚ),
             severity := getBorderRadiusSeverity
               (minimumOn (fun w => |v - w|) v0 vrest) }]
        else [] := by
    rw [hbrc, if_pos hv, findSpacingMismatch_eq, hsnd]
    by_cases h : minimumOn (fun w => |v - w|) v0 vrest ≤ THRESHOLDS.spacing.pixels
    · rw [if_pos h, if_pos h]
    · rw [if_neg h, if_neg h]
  refine ⟨⟨⟨(minFold (fun w => |v - w|) (v0, |v - v0|) vrest).1,
      minFold_fst_mem (fun w => |v - w|) vrest v0, by
      rw [minFold_fst_val (fun w => |v - w|) vrest v0, hsnd]⟩,
    fun w hw => minimumOn_le (fun w => |v - w|) v0 vrest w hw⟩, ?_, ?_⟩
  · rw [hcheck]
    by_cases h : minimumOn (fun w => |v - w|) v0 vrest ≤ THRESHOLDS.spacing.pixels
    · simp [h]
    · rw [if_neg h]
      have h24 : THRESHOLDS.borderRadius.pixels <
          minimumOn (fun w => |v - w|) v0 vrest := by
        have h42 : THRESHOLDS.borderRadius.pixels < THRESHOLDS.spacing.pixels := by
          norm_num [THRESHOLDS.borderRadius.pixels, THRESHOLDS.spacing.pixels]
        exact lt_of_lt_of_le h42 (le_of_not_le h)
      simp [h24, h]
  · intro h
    refine ⟨(minFold (fun w => |v - w|) (v0, |v - v0|) vrest).1, ?_, ?_⟩
    · have hfind := minFold_find? (fun w => |v - w|) vrest v0
      rw [hsnd] at hfind
      exact hfind
    · rw [hcheck, if_neg (not_le.2 h)]
      have h24 : THRESHOLDS.borderRadius.pixels <
          minimumOn (fun w => |v - w|) v0 vrest := by
        have h42 : THRESHOLDS.borderRadius.pixels < THRESHOLDS.spacing.pixels := by
          norm_num [THRESHOLDS.borderRadius.pixels, THRESHOLDS.spacing.pixels]
        exact h42.trans h
      rw [if_pos h24]

/-- Styles of the element exhibiting the C5 counterexample: only a computed
border-radius of `11px`. -/
def stylesC5 : ComputedStyleData := { borderRadius := some (some 11) }

/-- The element exhibiting the C5 counterexample. -/
def elemC5 : DOMElement :=
  { tagName := "div", id := some "card5", computedStyles := stylesC5, children := [] }

/-- Counterexample to C5 as stated: against the single spacing token `8`, a
border-radius of `11px` has minimum deviation `3`, which exceeds the 2px
border-radius tolerance — yet `compareSpacing` raises no mismatch at all,
because `findSpacingMismatch` already filtered the deviation at the 4px
spacing tolerance. -/
theorem C5_counterexample_border_radius_tolerance :
    THRESHOLDS.borderRadius.pixels < |(11 : ℚ) - 8| ∧
    compareSpacing [elemC5] [⟨"sm", 8⟩] = [] := by
  constructor
  · norm_num [THRESHOLDS.borderRadius.pixels]
  · norm_num [compareSpacing, processDomTree, processElementTree, processChildren,
      spacingCheck, spacingPropCheck, borderRadiusCheck, findSpacingMismatch,
      buildSelector, elemC5, stylesC5, NumProp.parseOr0,
      THRESHOLDS.spacing.pixels, List.foldl]

/-- Witness for the amended C5: the same input evaluates to "no mismatch"
through the amended theorem, the minimum deviation 3 being within the 4px
spacing tolerance. -/
theorem C5_amended_border_radius_uses_spacing_tolerance_witness :
    borderRadiusCheck [8] stylesC5 ⟨"div", "div", none, none⟩ = [] :=
  (C5_amended_border_radius_uses_spacing_tolerance 11 (by norm_num) 8 []
    stylesC5 ⟨"div", "div", none, none⟩ rfl).2.1.mpr
    (by norm_num [minimumOn, THRESHOLDS.spacing.pixels])

theorem lineHeightLoop_eq_nil_iff (alh ar fs : ℚ) (eref : ElementRef) :
    ∀ l : List TypographyToken,
      (lineHeightLoop alh ar fs eref l = [] ↔
        ∀ t ∈ l, |ar - expectedLineHeightOf fs t / t.fontSize| ≤
          THRESHOLDS.lineHeight.ratio)
  | [] => by simp [lineHeightLoop]
  | t :: l => by
    rw [lineHeightLoop]
    by_cases h : THRESHOLDS.lineHeight.ratio <
        |ar - expectedLineHeightOf fs t / t.fontSize|
    · simp only [h, if_pos]
      constructor
      · intro hcontra; cases hcontra
      · intro hall
        exact absurd (hall t (List.mem_cons_self t l)) (not_le.2 h)
    · simp only [h, if_neg, not_false_iff]
      rw [lineHeightLoop_eq_nil_iff alh ar fs eref l]
      constructor
      · intro hall u hu
        rcases List.mem_cons.1 hu with hu | hu
        · subst hu; exact not_lt.1 h
        · exact hall u hu
      · intro hall u hu
        exact hall u (List.mem_cons_of_mem _ hu)

theorem lineHeightLoop_find (alh ar fs : ℚ) (eref : ElementRef) :
    ∀ (l : List TypographyToken) (t : TypographyToken),
      l.find? (fun u => decide (THRESHOLDS.lineHeight.ratio <
        |ar - expectedLineHeightOf fs u / u.fontSize|)) = some t →
      lineHeightLoop alh ar fs eref l =
        [{ category := .typography, property := "lineHeight",
           expectedValue := .px (expectedLineHeightOf fs t), actualValue := .px alh,
           element := eref,
           deviation := ((|ar - expectedLineHeightOf fs t / t.fontSize| * 100 : ℚ) : WithTop ℚ),
           severity := getLineHeightSeverity
             |ar - expectedLineHeightOf fs t / t.fontSize| }]
  | [], t, h => by cases h
  | u :: l, t, h => by
    rw [lineHeightLoop]
    by_cases hu : THRESHOLDS.lineHeight.ratio <
        |ar - expectedLineHeightOf fs u / u.fontSize|
    · rw [List.find?_cons_of_pos _ (by simpa using hu)] at h
      injection h with h
      subst h
      rw [if_pos hu]
    · rw [List.find?_cons_of_neg _ (by simpa using hu)] at h
      rw [if_neg hu]
      exact lineHeightLoop_find alh ar fs eref l t h

/-- C6 (amended): when the computed line-height parses to a number (and
is not the keyword `normal`), a `lineHeight` mismatch is raised exactly when
**some** typography token's line-height-to-font-size ratio differs from the
actual ratio by more than the 0.1 tolerance; the reported mismatch is built
from the **first such token in iteration order**, not from the closest token.
(The original claim — deviation measured against the single closest token —
is refuted by `C6_counterexample_line_height_first_not_closest`.)  Token font
sizes are assumed non-zero, matching the rational-division model of the
JavaScript arithmetic. -/
theorem C6_amended_line_height_first_offending_token
    (figmaTypography : List TypographyToken) (styles : ComputedStyleData)
    (eref : ElementRef) (alh : ℚ)
    (hlh : styles.lineHeight = .value (some alh))
    (_hfs : ∀ t ∈ figmaTypography, t.fontSize ≠ 0) :
    (checkLineHeight figmaTypography styles eref = [] ↔
      ∀ t ∈ figmaTypography,
        |alh / styles.fontSize.parseOr16 -
          expectedLineHeightOf styles.fontSize.parseOr16 t / t.fontSize| ≤
          THRESHOLDS.lineHeight.ratio) ∧
    (∀ t, figmaTypography.find?
        (fun u => decide (THRESHOLDS.lineHeight.ratio <
          |alh / styles.fontSize.parseOr16 -
            expectedLineHeightOf styles.fontSize.parseOr16 u / u.fontSize|)) = some t →
      checkLineHeight figmaTypography styles eref =
        [{ category := .typography, property := "lineHeight",
           expectedValue := .px (expectedLineHeightOf styles.fontSize.parseOr16 t),
           actualValue := .px alh, element := eref,
           deviation := ((|alh / styles.fontSize.parseOr16 -
             expectedLineHeightOf styles.fontSize.parseOr16 t / t.fontSize| * 100 : ℚ) :
             WithTop ℚ),
           severity := getLineHeightSeverity
             |alh / styles.fontSize.parseOr16 -
               expectedLineHeightOf styles.fontSize.parseOr16 t / t.fontSize| }]) := by
  have hchk : checkLineHeight figmaTypography styles eref =
      lineHeightLoop alh (alh / styles.fontSize.parseOr16) styles.fontSize.parseOr16
        eref figmaTypography := by
    rw [checkLineHeight, hlh]
  constructor
  · rw [hchk]
    exact lineHeightLoop_eq_nil_iff alh _ _ eref figmaTypography
  · intro t ht
    rw [hchk]
    exact lineHeightLoop_find alh _ _ eref figmaTypography t ht

/-- Styles of the element exhibiting the C6 counterexample: font-size `16px`,
line-height `24px` (hence ratio 1.5). -/
def stylesC6 : ComputedStyleData :=
  { fontSize := some (some 16), lineHeight := .value (some 24) }

/-- Element reference used in the C6 counterexample. -/
def erefC6 : ElementRef := ⟨"h1", "h1", none, none⟩

/-- The typography tokens of the C6 counterexample: the first has ratio 2.0
(off by 0.5), the second ratio 1.5 (an exact match). -/
def tokensC6 : List TypographyToken :=
  [⟨"a", "Arial", 16, 400, some 32, 0⟩, ⟨"b", "Arial", 16, 400, some 24, 0⟩]

/-- Counterexample to C6 as stated: the closest token's ratio deviation is 0
(within the 0.1 tolerance), so by the claim no mismatch should be raised —
yet the engine raises one, built from the first offending token (expected
value `32px`, deviation 50, severity critical). -/
theorem C6_counterexample_line_height_first_not_closest :
    minimumOn
        (fun t => |((24 : ℚ) / 16) - expectedLineHeightOf 16 t / t.fontSize|)
        ⟨"a", "Arial", 16, 400, some 32, 0⟩ [⟨"b", "Arial", 16, 400, some 24, 0⟩] ≤
      THRESHOLDS.lineHeight.ratio ∧
    checkLineHeight tokensC6 stylesC6 erefC6 =
      [{ category := .typography, property := "lineHeight",
         expectedValue := .px 32, actualValue := .px 24, element := erefC6,
         deviation := ((50 : ℚ) : WithTop ℚ), severity := .critical }] := by
  constructor
  · norm_num [minimumOn, expectedLineHeightOf, THRESHOLDS.lineHeight.ratio, List.foldl]
  · norm_num [checkLineHeight, stylesC6, tokensC6, lineHeightLoop,
      expectedLineHeightOf, NumProp.parseOr16, THRESHOLDS.lineHeight.ratio,
      getLineHeightSeverity, THRESHOLDS.lineHeight.critical,
      THRESHOLDS.lineHeight.major]
    norm_num [show |(1 : ℚ) / 2| = 1 / 2 from by norm_num, WithTop.coe_eq_coe]
    rw [show (100 : WithTop ℚ) = ((100 : ℚ) : WithTop ℚ) from rfl,
        show (50 : WithTop ℚ) = ((50 : ℚ) : WithTop ℚ) from rfl,
        ← WithTop.coe_mul, WithTop.coe_eq_coe]
    norm_num

/-- Witness for the amended C6: a single exactly-matching token produces no
line-height mismatch. -/
theorem C6_amended_line_height_first_offending_token_witness :
    checkLineHeight [⟨"b", "Arial", 16, 400, some 24, 0⟩] stylesC6 erefC6 = [] :=
  (C6_amended_line_height_first_offending_token
    [⟨"b", "Arial", 16, 400, some 24, 0⟩] stylesC6 erefC6 24 rfl
    (by norm_num)).1.mpr
    (by norm_num [expectedLineHeightOf, NumProp.parseOr16, stylesC6,
      THRESHOLDS.lineHeight.ratio])

mutual

theorem processElementTree_forall {check : DOMElement → String → List StyleMismatch}
    {P : StyleMismatch → Prop}
    (hcheck : ∀ el sel, ∀ m ∈ check el sel, P m) :
    ∀ (el : DOMElement) (path : String), ∀ m ∈ processElementTree check el path, P m
  | el, path, m, hm => by
    simp only [processElementTree] at hm
    rcases List.mem_append.1 hm with h | h
    · exact hcheck el _ m h
    · exact processChildren_forall hcheck el.children _ 1 m h
termination_by el _ _ _ => sizeOf el
decreasing_by cases el; simp

theorem processChildren_forall {check : DOMElement → String → List StyleMismatch}
    {P : StyleMismatch → Prop}
    (hcheck : ∀ el sel, ∀ m ∈ check el sel, P m) :
    ∀ (l : List DOMElement) (sel : String) (i : ℕ),
      ∀ m ∈ processChildren check l sel i, P m
  | [], _, _, m, hm => by simp [processChildren] at hm
  | c :: cs, sel, i, m, hm => by
    simp only [processChildren] at hm
    rcases List.mem_append.1 hm with h | h
    · exact processElementTree_forall hcheck c _ m h
    · exact processChildren_forall hcheck cs sel (i + 1) m h
termination_by l _ _ _ _ => sizeOf l

end

theorem processDomTree_forall {check : DOMElement → String → List StyleMismatch}
    {P : StyleMismatch → Prop}
    (hcheck : ∀ el sel, ∀ m ∈ check el sel, P m) :
    ∀ (l : List DOMElement) (i : ℕ), ∀ m ∈ processDomTree check l i, P m := by
  intro l
  induction l with
  | nil => intro i m hm; simp [processDomTree] at hm
  | cons el rest ih =>
    intro i m hm
    simp only [processDomTree] at hm
    rcases List.mem_append.1 hm with h | h
    · exact processElementTree_forall hcheck el _ m h
    · exact ih (i + 1) m h

theorem colorCheck_shape (lib : ChromaLib) (figmaColors : List ColorToken)
    (el : DOMElement) (sel : String) :
    ∀ m ∈ colorCheck lib figmaColors el sel,
      m.figmaComponent = none ∧ m.severity = getColorSeverity m.deviation ∧
      ((m.property = "color" ∧ m.category = .color) ∨
       (m.property = "backgroundColor" ∧ m.category = .color) ∨
       (m.property = "borderColor" ∧ m.category = .border)) := by
  intro m hm
  simp only [colorCheck] at hm
  rcases List.mem_append.1 hm with h | h
  rcases List.mem_append.1 h with h | h
  · split at h
    case h_1 c heq =>
      split at h
      case h_1 fm heq2 =>
        simp only [List.mem_singleton] at h
        subst h
        exact ⟨rfl, rfl, Or.inl ⟨rfl, rfl⟩⟩
      case h_2 => cases h
    case h_2 => cases h
  · split at h
    case h_1 bg heq =>
      split at h
      · split at h
        case h_1 fm heq2 =>
          simp only [List.mem_singleton] at h
          subst h
          exact ⟨rfl, rfl, Or.inr (Or.inl ⟨rfl, rfl⟩)⟩
        case h_2 => cases h
      · cases h
    case h_2 => cases h
  · split at h
    case h_1 bc heq =>
      split at h
      · split at h
        case h_1 fm heq2 =>
          simp only [List.mem_singleton] at h
          subst h
          exact ⟨rfl, rfl, Or.inr (Or.inr ⟨rfl, rfl⟩)⟩
        case h_2 => cases h
      · cases h
    case h_2 => cases h

theorem lineHeightLoop_shape (alh ar fs : ℚ) (eref : ElementRef) :
    ∀ (l : List TypographyToken), ∀ m ∈ lineHeightLoop alh ar fs eref l,
      m.category = MismatchCategory.typography ∧ m.property = "lineHeight" ∧
      m.figmaComponent = none ∧
      ∃ r : ℚ, m.deviation = ((r * 100 : ℚ) : WithTop ℚ) ∧
        m.severity = getLineHeightSeverity r
  | [], m, hm => by cases hm
  | t :: rest, m, hm => by
    rw [lineHeightLoop] at hm
    split at hm
    · simp only [List.mem_singleton] at hm
      subst hm
      exact ⟨rfl, rfl, rfl, _, rfl, rfl⟩
    · exact lineHeightLoop_shape alh ar fs eref rest m hm

theorem typographyCheck_shape (figmaTypography : List TypographyToken)
    (el : DOMElement) (sel : String) :
    ∀ m ∈ typographyCheck figmaTypography el sel,
      m.figmaComponent = none ∧ m.category = .typography ∧
      ((m.property = "fontSize" ∧ ∃ d : ℚ, m.deviation = (d : WithTop ℚ) ∧
          m.severity = getFontSizeSeverity d) ∨
       (m.property = "fontWeight" ∧ m.severity = .minor) ∨
       (m.property = "lineHeight" ∧ ∃ r : ℚ, m.deviation = ((r * 100 : ℚ) : WithTop ℚ) ∧
          m.severity = getLineHeightSeverity r)) := by
  intro m hm
  simp only [typographyCheck] at hm
  rcases List.mem_append.1 hm with h | h
  rcases List.mem_append.1 h with h | h
  · -- font size
    simp only [checkFontSize] at h
    split at h
    case h_1 actualSize heq =>
      split at h
      case h_1 closestTypo heq2 =>
        split at h
        · simp only [List.mem_singleton] at h
          subst h
          exact ⟨rfl, rfl, Or.inl ⟨rfl, _, rfl, rfl⟩⟩
        · cases h
      case h_2 => cases h
    case h_2 => cases h
  · -- font weight
    simp only [checkFontWeight] at h
    split at h
    case h_1 actualWeight heq =>
      split at h
      case h_1 closestTypo heq2 =>
        split at h
        · simp only [List.mem_singleton] at h
          subst h
          exact ⟨rfl, rfl, Or.inr (Or.inl ⟨rfl, rfl⟩)⟩
        · cases h
      case h_2 => cases h
    case h_2 => cases h
  · -- line height
    simp only [checkLineHeight] at h
    split at h
    case h_1 alh heq =>
      obtain ⟨h1, h2, h3, r, h4, h5⟩ := lineHeightLoop_shape _ _ _ _ figmaTypography m h
      exact ⟨h3, h1, Or.inr (Or.inr ⟨h2, r, h4, h5⟩)⟩
    case h_2 => cases h

/-- The nine spacing property names checked against spacing tokens (the
border-radius check also draws on spacing tokens but emits in the `border`
category). -/
def spacingPropNames : List String :=
  ["paddingTop", "paddingRight", "paddingBottom", "paddingLeft",
   "marginTop", "marginRight", "marginBottom", "marginLeft", "gap"]

/-- The `parseFloat(styles[prop]) || 0` value of a box-model property by
name (`0` for any other name). -/
def spacingFieldValue (s : ComputedStyleData) : String → ℚ
  | "paddingTop" => s.paddingTop.parseOr0
  | "paddingRight" => s.paddingRight.parseOr0
  | "paddingBottom" => s.paddingBottom.parseOr0
  | "paddingLeft" => s.paddingLeft.parseOr0
  | "marginTop" => s.marginTop.parseOr0
  | "marginRight" => s.marginRight.parseOr0
  | "marginBottom" => s.marginBottom.parseOr0
  | "marginLeft" => s.marginLeft.parseOr0
  | "gap" => s.gap.parseOr0
  | "borderRadius" => s.borderRadius.parseOr0
  | _ => 0

theorem spacingPropCheck_shape (vals : List ℚ) (eref : ElementRef)
    (name : String) (field : NumProp) :
    ∀ m ∈ spacingPropCheck vals eref name field,
      m.figmaComponent = none ∧ m.category = .spacing ∧ m.property = name ∧
      0 < field.parseOr0 ∧
      ∃ d : ℚ, m.deviation = (d : WithTop ℚ) ∧ m.severity = getSpacingSeverity d := by
  intro m hm
  simp only [spacingPropCheck] at hm
  split at hm
  · split at hm
    case h_1 fm heq =>
      simp only [List.mem_singleton] at hm
      subst hm
      exact ⟨rfl, rfl, rfl, by assumption, fm.deviation, rfl, rfl⟩
    case h_2 => cases hm
  · cases hm

theorem borderRadiusCheck_shape (vals : List ℚ) (styles : ComputedStyleData)
    (eref : ElementRef) :
    ∀ m ∈ borderRadiusCheck vals styles eref,
      m.figmaComponent = none ∧ m.category = .border ∧ m.property = "borderRadius" ∧
      0 < styles.borderRadius.parseOr0 ∧
      ∃ d : ℚ, m.deviation = (d : WithTop ℚ) ∧
        m.severity = getBorderRadiusSeverity d := by
  intro m hm
  simp only [borderRadiusCheck] at hm
  split at hm
  case h_1 br heq =>
    split at hm
    case isTrue hval =>
      split at hm
      case h_1 fm heq2 =>
        split at hm
        · simp only [List.mem_singleton] at hm
          subst hm
          refine ⟨rfl, rfl, rfl, ?_, fm.deviation, rfl, rfl⟩
          rw [heq]
          exact hval
        · cases hm
      case h_2 => cases hm
    case isFalse => cases hm
  case h_2 => cases hm

theorem spacingCheck_shape (vals : List ℚ) (el : DOMElement) (sel : String) :
    ∀ m ∈ spacingCheck vals el sel,
      m.figmaComponent = none ∧
      0 < spacingFieldValue el.computedStyles m.property ∧
      ((m.category = .spacing ∧ m.property ∈ spacingPropNames ∧
          ∃ d : ℚ, m.deviation = (d : WithTop ℚ) ∧ m.severity = getSpacingSeverity d) ∨
       (m.category = .border ∧ m.property = "borderRadius" ∧
          ∃ d : ℚ, m.deviation = (d : WithTop ℚ) ∧
            m.severity = getBorderRadiusSeverity d)) := by
  intro m hm
  simp only [spacingCheck] at hm
  rcases List.mem_append.1 hm with h | hbr
  rcases List.mem_append.1 h with h | hgap
  rcases List.mem_append.1 h with h | h8
  rcases List.mem_append.1 h with h | h7
  rcases List.mem_append.1 h with h | h6
  rcases List.mem_append.1 h with h | h5
  rcases List.mem_append.1 h with h | h4
  rcases List.mem_append.1 h with h | h3
  rcases List.mem_append.1 h with h1 | h2
  · obtain ⟨hc, hcat, hp, hpos, hd⟩ := spacingPropCheck_shape _ _ _ _ m h1
    exact ⟨hc, by rw [hp]; exact hpos, Or.inl ⟨hcat, by rw [hp]; decide, hd⟩⟩
  · obtain ⟨hc, hcat, hp, hpos, hd⟩ := spacingPropCheck_shape _ _ _ _ m h2
    exact ⟨hc, by rw [hp]; exact hpos, Or.inl ⟨hcat, by rw [hp]; decide, hd⟩⟩
  · obtain ⟨hc, hcat, hp, hpos, hd⟩ := spacingPropCheck_shape _ _ _ _ m h3
    exact ⟨hc, by rw [hp]; exact hpos, Or.inl ⟨hcat, by rw [hp]; decide, hd⟩⟩
  · obtain ⟨hc, hcat, hp, hpos, hd⟩ := spacingPropCheck_shape _ _ _ _ m h4
    exact ⟨hc, by rw [hp]; exact hpos, Or.inl ⟨hcat, by rw [hp]; decide, hd⟩⟩
  · obtain ⟨hc, hcat, hp, hpos, hd⟩ := spacingPropCheck_shape _ _ _ _ m h5
    exact ⟨hc, by rw [hp]; exact hpos, Or.inl ⟨hcat, by rw [hp]; decide, hd⟩⟩
  · obtain ⟨hc, hcat, hp, hpos, hd⟩ := spacingPropCheck_shape _ _ _ _ m h6
    exact ⟨hc, by rw [hp]; exact hpos, Or.inl ⟨hcat, by rw [hp]; decide, hd⟩⟩
  · obtain ⟨hc, hcat, hp, hpos, hd⟩ := spacingPropCheck_shape _ _ _ _ m h7
    exact ⟨hc, by rw [hp]; exact hpos, Or.inl ⟨hcat, by rw [hp]; decide, hd⟩⟩
  · obtain ⟨hc, hcat, hp, hpos, hd⟩ := spacingPropCheck_shape _ _ _ _ m h8
    exact ⟨hc, by rw [hp]; exact hpos, Or.inl ⟨hcat, by rw [hp]; decide, hd⟩⟩
  · -- gap
    split at hgap
    case h_1 g heq =>
      obtain ⟨hc, hcat, hp, hpos, hd⟩ := spacingPropCheck_shape _ _ _ _ m hgap
      refine ⟨hc, ?_, Or.inl ⟨hcat, by rw [hp]; decide, hd⟩⟩
      rw [hp]
      have hsf : spacingFieldValue el.computedStyles "gap" =
          el.computedStyles.gap.parseOr0 := rfl
      rw [hsf, heq]
      exact hpos
    case h_2 => cases hgap
  · -- border radius
    obtain ⟨hc, hcat, hp, hpos, hd⟩ := borderRadiusCheck_shape _ _ _ m hbr
    exact ⟨hc, by rw [hp]; exact hpos, Or.inr ⟨hcat, hp, hd⟩⟩

theorem elementStyleCheck_shape (eref : ElementRef) (componentName propName : String)
    (expected actual : Bool × ℚ) :
    ∀ m ∈ elementStyleCheck eref componentName propName expected actual,
      m.figmaComponent = some componentName ∧ m.severity = .major ∧
      m.category = getCategoryForProperty propName ∧ m.property = propName := by
  intro m hm
  simp only [elementStyleCheck] at hm
  split at hm
  · split at hm
    · simp only [List.mem_singleton] at hm
      subst hm
      exact ⟨rfl, rfl, rfl, rfl⟩
    · cases hm
  · cases hm

theorem compareElementStyles_shape (el : DOMElement) (fc : FigmaComponent)
    (st : ComputedStyleData) :
    ∀ m ∈ compareElementStyles el fc st,
      m.figmaComponent = some fc.name ∧ m.severity = .major ∧
      (m.category = .typography ∨ m.category = .spacing ∨ m.category = .border) := by
  intro m hm
  simp only [compareElementStyles] at hm
  rcases List.mem_append.1 hm with h | h6
  rcases List.mem_append.1 h with h | h5
  rcases List.mem_append.1 h with h | h4
  rcases List.mem_append.1 h with h | h3
  rcases List.mem_append.1 h with h1 | h2
  · obtain ⟨hc, hs, hcat, hp⟩ := elementStyleCheck_shape _ _ _ _ _ m h1
    exact ⟨hc, hs, by rw [hcat]; exact Or.inl (by decide)⟩
  · obtain ⟨hc, hs, hcat, hp⟩ := elementStyleCheck_shape _ _ _ _ _ m h2
    exact ⟨hc, hs, by rw [hcat]; exact Or.inl (by decide)⟩
  · obtain ⟨hc, hs, hcat, hp⟩ := elementStyleCheck_shape _ _ _ _ _ m h3
    exact ⟨hc, hs, by rw [hcat]; exact Or.inl (by decide)⟩
  · obtain ⟨hc, hs, hcat, hp⟩ := elementStyleCheck_shape _ _ _ _ _ m h4
    exact ⟨hc, hs, by rw [hcat]; exact Or.inr (Or.inl (by decide))⟩
  · obtain ⟨hc, hs, hcat, hp⟩ := elementStyleCheck_shape _ _ _ _ _ m h5
    exact ⟨hc, hs, by rw [hcat]; exact Or.inr (Or.inl (by decide))⟩
  · obtain ⟨hc, hs, hcat, hp⟩ := elementStyleCheck_shape _ _ _ _ _ m h6
    exact ⟨hc, hs, by rw [hcat]; exact Or.inr (Or.inr (by decide))⟩

theorem compareComponents_shape (domTree : List DOMElement)
    (comps : List FigmaComponent) :
    ∀ m ∈ compareComponents domTree comps,
      (∃ name, m.figmaComponent = some name) ∧ m.severity = .major ∧
      (m.category = .typography ∨ m.category = .spacing ∨ m.category = .border) := by
  intro m hm
  simp only [compareComponents, List.mem_flatMap] at hm
  obtain ⟨fc, _, hm⟩ := hm
  split at hm
  case h_1 el hel =>
    split at hm
    case h_1 st hst =>
      obtain ⟨hc, hs, hcat⟩ := compareElementStyles_shape el fc st m hm
      exact ⟨⟨fc.name, hc⟩, hs, hcat⟩
    case h_2 => cases hm
  case h_2 => cases hm

theorem compare_mismatches_eq (lib : ChromaLib) (web : WebAnalysisResult)
    (figma : FigmaAnalysisResult) :
    (ComparisonEngine.compare lib web figma).mismatches =
      compareColors lib web.domTree figma.designTokens.colors
        ++ compareTypography web.domTree figma.designTokens.typography
        ++ compareSpacing web.domTree figma.designTokens.spacing
        ++ (if 0 < figma.components.length ∧ 0 < web.domTree.length then
              compareComponents web.domTree figma.components
            else []) := rfl

theorem compareColors_shape (lib : ChromaLib) (domTree : List DOMElement)
    (toks : List ColorToken) :
    ∀ m ∈ compareColors lib domTree toks,
      m.figmaComponent = none ∧ m.severity = getColorSeverity m.deviation ∧
      ((m.property = "color" ∧ m.category = .color) ∨
       (m.property = "backgroundColor" ∧ m.category = .color) ∨
       (m.property = "borderColor" ∧ m.category = .border)) := by
  intro m hm
  rw [compareColors] at hm
  split at hm
  · cases hm
  · exact processDomTree_forall (colorCheck_shape lib toks) domTree 1 m hm

theorem compareTypography_shape (domTree : List DOMElement)
    (toks : List TypographyToken) :
    ∀ m ∈ compareTypography domTree toks,
      m.figmaComponent = none ∧ m.category = .typography ∧
      ((m.property = "fontSize" ∧ ∃ d : ℚ, m.deviation = (d : WithTop ℚ) ∧
          m.severity = getFontSizeSeverity d) ∨
       (m.property = "fontWeight" ∧ m.severity = .minor) ∨
       (m.property = "lineHeight" ∧ ∃ r : ℚ, m.deviation = ((r * 100 : ℚ) : WithTop ℚ) ∧
          m.severity = getLineHeightSeverity r)) := by
  intro m hm
  rw [compareTypography] at hm
  split at hm
  · cases hm
  · exact processDomTree_forall (typographyCheck_shape toks) domTree 1 m hm

theorem compareSpacing_shape (domTree : List DOMElement)
    (toks : List SpacingToken) :
    ∀ m ∈ compareSpacing domTree toks,
      m.figmaComponent = none ∧
      ((m.category = .spacing ∧ m.property ∈ spacingPropNames ∧
          ∃ d : ℚ, m.deviation = (d : WithTop ℚ) ∧ m.severity = getSpacingSeverity d) ∨
       (m.category = .border ∧ m.property = "borderRadius" ∧
          ∃ d : ℚ, m.deviation = (d : WithTop ℚ) ∧
            m.severity = getBorderRadiusSeverity d)) := by
  intro m hm
  rw [compareSpacing] at hm
  split at hm
  · cases hm
  · have hch : ∀ el sel, ∀ m' ∈ spacingCheck (toks.map SpacingToken.value) el sel,
        m'.figmaComponent = none ∧
        ((m'.category = MismatchCategory.spacing ∧ m'.property ∈ spacingPropNames ∧
            ∃ d : ℚ, m'.deviation = (d : WithTop ℚ) ∧
              m'.severity = getSpacingSeverity d) ∨
         (m'.category = MismatchCategory.border ∧ m'.property = "borderRadius" ∧
            ∃ d : ℚ, m'.deviation = (d : WithTop ℚ) ∧
              m'.severity = getBorderRadiusSeverity d)) := by
      intro el sel m' hm'
      obtain ⟨hc, -, hshape⟩ := spacingCheck_shape _ el sel m' hm'
      exact ⟨hc, hshape⟩
    exact processDomTree_forall hch domTree 1 m hm

theorem filter_category_eq_nil {ms : List StyleMismatch} {c : MismatchCategory}
    (h : ∀ m ∈ ms, m.category ≠ c) :
    ms.filter (fun m => m.category == c) = [] :=
  List.filter_eq_nil_iff.2 (fun m hm => by simp [h m hm])

theorem score_100_of_filter_nil (ms : List StyleMismatch) (c : MismatchCategory)
    (h : ms.filter (fun m => m.category == c) = []) :
    calculateCategoryScores ms c = 100 := by
  rw [calculateCategoryScores]
  simp [h]

/-- C7 (amended): an empty colour-token collection means `compare` raises no
colour-category mismatch and scores the colour category 100, unconditionally;
an empty typography (resp. spacing) collection means the same for that
category **provided no design components are supplied** — the component-
matching pass raises typography/spacing/border mismatches independently of the
token collections, which refutes the unconditional claim
(`C7_counterexample_components_bypass_empty_typography`).  `compare` is a
total function, so no such call fails. -/
theorem C7_amended_empty_token_collections (lib : ChromaLib)
    (web : WebAnalysisResult) (figma : FigmaAnalysisResult) :
    (figma.designTokens.colors = [] →
      (ComparisonEngine.compare lib web figma).mismatches.filter
        (fun m => m.category == MismatchCategory.color) = [] ∧
      (ComparisonEngine.compare lib web figma).categoryScores .color = 100) ∧
    (figma.designTokens.typography = [] → figma.components = [] →
      (ComparisonEngine.compare lib web figma).mismatches.filter
        (fun m => m.category == MismatchCategory.typography) = [] ∧
      (ComparisonEngine.compare lib web figma).categoryScores .typography = 100) ∧
    (figma.designTokens.spacing = [] → figma.components = [] →
      (ComparisonEngine.compare lib web figma).mismatches.filter
        (fun m => m.category == MismatchCategory.spacing) = [] ∧
      (ComparisonEngine.compare lib web figma).categoryScores .spacing = 100) := by
  have hscore : ∀ c, (ComparisonEngine.compare lib web figma).mismatches.filter
      (fun m => m.category == c) = [] →
      (ComparisonEngine.compare lib web figma).categoryScores c = 100 := by
    intro c h
    have heq : (ComparisonEngine.compare lib web figma).categoryScores c =
        calculateCategoryScores
          ((ComparisonEngine.compare lib web figma).mismatches) c := rfl
    rw [heq]
    exact score_100_of_filter_nil _ c h
  have hcomps : ∀ m ∈ (if 0 < figma.components.length ∧ 0 < web.domTree.length then
        compareComponents web.domTree figma.components else []),
      m.category = .typography ∨ m.category = .spacing ∨ m.category = .border := by
    intro m hm
    split at hm
    · exact (compareComponents_shape _ _ m hm).2.2
    · cases hm
  refine ⟨?_, ?_, ?_⟩
  · intro h
    have hnil : (ComparisonEngine.compare lib web figma).mismatches.filter
        (fun m => m.category == MismatchCategory.color) = [] := by
      apply List.filter_eq_nil_iff.2
      intro m hm
      rw [compare_mismatches_eq, h] at hm
      rcases List.mem_append.1 hm with hm | hm4
      rcases List.mem_append.1 hm with hm | hm3
      rcases List.mem_append.1 hm with hm1 | hm2
      · rw [show compareColors lib web.domTree [] = []
            from by simp [compareColors]] at hm1
        cases hm1
      · have h1 := (compareTypography_shape _ _ m hm2).2.1
        simp [h1]
      · rcases (compareSpacing_shape _ _ m hm3).2 with ⟨h1, -⟩ | ⟨h1, -⟩ <;> simp [h1]
      · rcases hcomps m hm4 with h1 | h1 | h1 <;> simp [h1]
    exact ⟨hnil, hscore _ hnil⟩
  · intro h hc
    have hnil : (ComparisonEngine.compare lib web figma).mismatches.filter
        (fun m => m.category == MismatchCategory.typography) = [] := by
      apply List.filter_eq_nil_iff.2
      intro m hm
      rw [compare_mismatches_eq, h, hc] at hm
      rcases List.mem_append.1 hm with hm | hm4
      rcases List.mem_append.1 hm with hm | hm3
      rcases List.mem_append.1 hm with hm1 | hm2
      · rcases (compareColors_shape _ _ _ m hm1).2.2 with ⟨-, h1⟩ | ⟨-, h1⟩ | ⟨-, h1⟩ <;>
          simp [h1]
      · rw [show compareTypography web.domTree [] = []
            from by simp [compareTypography]] at hm2
        cases hm2
      · rcases (compareSpacing_shape _ _ m hm3).2 with ⟨h1, -⟩ | ⟨h1, -⟩ <;> simp [h1]
      · simp at hm4
    exact ⟨hnil, hscore _ hnil⟩
  · intro h hc
    have hnil : (ComparisonEngine.compare lib web figma).mismatches.filter
        (fun m => m.category == MismatchCategory.spacing) = [] := by
      apply List.filter_eq_nil_iff.2
      intro m hm
      rw [compare_mismatches_eq, h, hc] at hm
      rcases List.mem_append.1 hm with hm | hm4
      rcases List.mem_append.1 hm with hm | hm3
      rcases List.mem_append.1 hm with hm1 | hm2
      · rcases (compareColors_shape _ _ _ m hm1).2.2 with ⟨-, h1⟩ | ⟨-, h1⟩ | ⟨-, h1⟩ <;>
          simp [h1]
      · have h1 := (compareTypography_shape _ _ m hm2).2.1
        simp [h1]
      · rw [show compareSpacing web.domTree [] = []
            from by simp [compareSpacing]] at hm3
        cases hm3
      · simp at hm4
    exact ⟨hnil, hscore _ hnil⟩

/-- Witness for the amended C7 at a fully empty input. -/
theorem C7_amended_empty_token_collections_witness :
    ((ComparisonEngine.compare libW webW figmaW).mismatches.filter
        (fun m => m.category == MismatchCategory.color) = [] ∧
      (ComparisonEngine.compare libW webW figmaW).categoryScores .color = 100) ∧
    ((ComparisonEngine.compare libW webW figmaW).mismatches.filter
        (fun m => m.category == MismatchCategory.typography) = [] ∧
      (ComparisonEngine.compare libW webW figmaW).categoryScores .typography = 100) ∧
    ((ComparisonEngine.compare libW webW figmaW).mismatches.filter
        (fun m => m.category == MismatchCategory.spacing) = [] ∧
      (ComparisonEngine.compare libW webW figmaW).categoryScores .spacing = 100) :=
  ⟨(C7_amended_empty_token_collections libW webW figmaW).1 rfl,
   (C7_amended_empty_token_collections libW webW figmaW).2.1 rfl rfl,
   (C7_amended_empty_token_collections libW webW figmaW).2.2 rfl rfl⟩

/-- Resolved component styles used by the component-path counterexamples:
a 32px font size. -/
def compStylesC7 : ComputedStyleData := { fontSize := some (some 32) }

/-- A design component named `card` carrying the resolved styles. -/
def compC7 : FigmaComponent := ⟨"card", some compStylesC7⟩

/-- The element matched by `compC7` (id `card`, actual font size 16px). -/
def elemC7 : DOMElement :=
  { tagName := "div", id := some "card",
    computedStyles := { fontSize := some (some 16) }, children := [] }

/-- Web analysis containing just `elemC7`. -/
def webC7 : WebAnalysisResult := ⟨[elemC7]⟩

/-- Figma analysis with completely empty token collections but one component. -/
def figmaC7 : FigmaAnalysisResult := ⟨⟨[], [], []⟩, [compC7]⟩

theorem findMatchingElement_card :
    findMatchingElement [elemC7] compC7 = some elemC7 := by
  have htl : "card".toLower = "card" := by
    simp only [String.toLower, String.map_eq]
    decide
  have hid : elemC7.id = some "card" := rfl
  have hcl : elemC7.className = none := rfl
  show findInTree ("card".toLower) [elemC7] = some elemC7
  rw [htl, findInTree, hid, hcl]
  simp only [Option.map_some', Option.getD_some, Option.map_none', Option.getD_none, htl]
  rw [if_pos (by decide : (jsIncludes "card" "card" || jsIncludes "" "card") = true)]

/-- The single mismatch the component pass produces on the fixture. -/
def componentMismatch : StyleMismatch :=
  { category := .typography, property := "fontSize",
    expectedValue := .px 32, actualValue := .px 16,
    element := mkElementRef elemC7 (buildSelector elemC7 ""),
    figmaComponent := some "card",
    deviation := ((16 : ℚ) : WithTop ℚ), severity := .major }

theorem componentFixture_mismatches :
    (ComparisonEngine.compare libW webC7 figmaC7).mismatches = [componentMismatch] := by
  have h0 : (ComparisonEngine.compare libW webC7 figmaC7).mismatches =
      compareComponents [elemC7] [compC7] := rfl
  have hst : compC7.styles = some compStylesC7 := rfl
  rw [h0]
  simp only [compareComponents, List.flatMap_cons, List.flatMap_nil,
    findMatchingElement_card, hst, List.append_nil]
  have hfs : compStylesC7.fontSize = some (some 32) := rfl
  have hafs : elemC7.computedStyles.fontSize = some (some 16) := rfl
  have hfw : compStylesC7.fontWeight = none := rfl
  have hafw : elemC7.computedStyles.fontWeight = none := rfl
  have hlh : compStylesC7.lineHeight = LineHeightProp.absent := rfl
  have halh : elemC7.computedStyles.lineHeight = LineHeightProp.absent := rfl
  have hpd : compStylesC7.padding = none := rfl
  have hapd : elemC7.computedStyles.padding = none := rfl
  have hmg : compStylesC7.margin = none := rfl
  have hamg : elemC7.computedStyles.margin = none := rfl
  have hbr : compStylesC7.borderRadius = none := rfl
  have habr : elemC7.computedStyles.borderRadius = none := rfl
  simp only [compareElementStyles, elementStyleCheck, NumProp.view, fontWeightView,
    lineHeightView, hfs, hafs, hfw, hafw, hlh, halh, hpd, hapd, hmg, hamg, hbr, habr,
    NumProp.isTruthy, NumProp.parseOr0, LineHeightProp.isTruthy, LineHeightProp.parseOr0,
    Option.isSome_none, Option.getD_none, Bool.and_self, Bool.and_false, Bool.false_and,
    if_false, Bool.true_and, THRESHOLDS.spacing.pixels]
  norm_num [getCategoryForProperty, componentMismatch]
  decide

/-- Counterexample to C7 as stated: with an **empty** typography token
collection but one supplied design component, `compare` raises a typography
mismatch through the component-matching pass, and the typography category
score is 90, not 100. -/
theorem C7_counterexample_components_bypass_empty_typography :
    figmaC7.designTokens.typography = [] ∧
    (ComparisonEngine.compare libW webC7 figmaC7).mismatches.filter
      (fun m => m.category == MismatchCategory.typography) ≠ [] ∧
    (ComparisonEngine.compare libW webC7 figmaC7).categoryScores .typography = 90 := by
  have hcat : componentMismatch.category = MismatchCategory.typography := rfl
  have hsev : componentMismatch.severity = MismatchSeverity.major := rfl
  refine ⟨rfl, ?_, ?_⟩
  · rw [componentFixture_mismatches]
    simp [hcat]
  · have heq : (ComparisonEngine.compare libW webC7 figmaC7).categoryScores .typography =
        calculateCategoryScores
          ((ComparisonEngine.compare libW webC7 figmaC7).mismatches) .typography := rfl
    rw [heq, componentFixture_mismatches, calculateCategoryScores]
    norm_num [severityDeduction, hcat, hsev]

/-- C8 (amended): every mismatch raised by the token-based traversal (those
with no originating component) has its severity given by the per-kind step
function of its recorded deviation — colour-valued properties by the Delta-E
thresholds 20/10, `fontSize` by 8/4, the padding/margin/gap properties by
16/8, `borderRadius` by 8/4, and `lineHeight` by the ratio thresholds 0.3/0.2
applied to deviation/100 — with `fontWeight` always `minor`; mismatches from
the component-matching pass are always `major`, regardless of deviation
(which refutes the original claim:
`C8_counterexample_component_severity_not_step`). -/
theorem C8_amended_severity_step_functions (lib : ChromaLib)
    (web : WebAnalysisResult) (figma : FigmaAnalysisResult) :
    ∀ m ∈ (ComparisonEngine.compare lib web figma).mismatches,
      (m.figmaComponent = none ∧
        ((m.severity = getColorSeverity m.deviation ∧
            m.property ∈ ["color", "backgroundColor", "borderColor"]) ∨
         ((∃ d : ℚ, m.deviation = (d : WithTop ℚ) ∧
            m.severity = getFontSizeSeverity d) ∧ m.property = "fontSize") ∨
         (m.severity = .minor ∧ m.property = "fontWeight") ∨
         ((∃ r : ℚ, m.deviation = ((r * 100 : ℚ) : WithTop ℚ) ∧
            m.severity = getLineHeightSeverity r) ∧ m.property = "lineHeight") ∨
         ((∃ d : ℚ, m.deviation = (d : WithTop ℚ) ∧
            m.severity = getSpacingSeverity d) ∧ m.property ∈ spacingPropNames) ∨
         ((∃ d : ℚ, m.deviation = (d : WithTop ℚ) ∧
            m.severity = getBorderRadiusSeverity d) ∧ m.property = "borderRadius"))) ∨
      (∃ name, m.figmaComponent = some name ∧ m.severity = .major) := by
  intro m hm
  rw [compare_mismatches_eq] at hm
  rcases List.mem_append.1 hm with hm | hm4
  rcases List.mem_append.1 hm with hm | hm3
  rcases List.mem_append.1 hm with hm1 | hm2
  · obtain ⟨hc, hsev, hprop⟩ := compareColors_shape _ _ _ m hm1
    refine Or.inl ⟨hc, Or.inl ⟨hsev, ?_⟩⟩
    rcases hprop with ⟨h1, -⟩ | ⟨h1, -⟩ | ⟨h1, -⟩ <;> simp [h1]
  · obtain ⟨hc, -, hprop⟩ := compareTypography_shape _ _ m hm2
    rcases hprop with ⟨h1, d, hd, hs⟩ | ⟨h1, hs⟩ | ⟨h1, r, hr, hs⟩
    · exact Or.inl ⟨hc, Or.inr (Or.inl ⟨⟨d, hd, hs⟩, h1⟩)⟩
    · exact Or.inl ⟨hc, Or.inr (Or.inr (Or.inl ⟨hs, h1⟩))⟩
    · exact Or.inl ⟨hc, Or.inr (Or.inr (Or.inr (Or.inl ⟨⟨r, hr, hs⟩, h1⟩)))⟩
  · obtain ⟨hc, hprop⟩ := compareSpacing_shape _ _ m hm3
    rcases hprop with ⟨-, h1, d, hd, hs⟩ | ⟨-, h1, d, hd, hs⟩
    · exact Or.inl ⟨hc, Or.inr (Or.inr (Or.inr (Or.inr (Or.inl ⟨⟨d, hd, hs⟩, h1⟩))))⟩
    · exact Or.inl ⟨hc, Or.inr (Or.inr (Or.inr (Or.inr (Or.inr ⟨⟨d, hd, hs⟩, h1⟩))))⟩
  · split at hm4
    · obtain ⟨⟨name, hname⟩, hs, -⟩ := compareComponents_shape _ _ m hm4
      exact Or.inr ⟨name, hname, hs⟩
    · cases hm4

/-- Counterexample to C8 as stated: the component-derived `fontSize` mismatch
has deviation 16, at or above both the font-size critical threshold (8) and
the spacing critical threshold (16), yet its severity is `major`, not the
`critical` every per-kind step function assigns at that deviation. -/
theorem C8_counterexample_component_severity_not_step :
    (ComparisonEngine.compare libW webC7 figmaC7).mismatches.map
        (fun m => (m.property, m.deviation, m.severity)) =
      [("fontSize", ((16 : ℚ) : WithTop ℚ), MismatchSeverity.major)] ∧
    getFontSizeSeverity 16 = .critical ∧ getSpacingSeverity 16 = .critical := by
  refine ⟨?_, ?_, ?_⟩
  · rw [componentFixture_mismatches]
    rfl
  · norm_num [getFontSizeSeverity, THRESHOLDS.fontSize.critical]
  · norm_num [getSpacingSeverity, THRESHOLDS.spacing.critical]

/-- Witness for the amended C8, at the component fixture: the single mismatch
is component-derived and `major`. -/
theorem C8_amended_severity_step_functions_witness :
    ∃ m, m ∈ (ComparisonEngine.compare libW webC7 figmaC7).mismatches ∧
      ((m.figmaComponent = none ∧
        ((m.severity = getColorSeverity m.deviation ∧
            m.property ∈ ["color", "backgroundColor", "borderColor"]) ∨
         ((∃ d : ℚ, m.deviation = (d : WithTop ℚ) ∧
            m.severity = getFontSizeSeverity d) ∧ m.property = "fontSize") ∨
         (m.severity = .minor ∧ m.property = "fontWeight") ∨
         ((∃ r : ℚ, m.deviation = ((r * 100 : ℚ) : WithTop ℚ) ∧
            m.severity = getLineHeightSeverity r) ∧ m.property = "lineHeight") ∨
         ((∃ d : ℚ, m.deviation = (d : WithTop ℚ) ∧
            m.severity = getSpacingSeverity d) ∧ m.property ∈ spacingPropNames) ∨
         ((∃ d : ℚ, m.deviation = (d : WithTop ℚ) ∧
            m.severity = getBorderRadiusSeverity d) ∧ m.property = "borderRadius"))) ∨
      (∃ name, m.figmaComponent = some name ∧ m.severity = .major)) := by
  have hmem : componentMismatch ∈
      (ComparisonEngine.compare libW webC7 figmaC7).mismatches := by
    rw [componentFixture_mismatches]
    exact List.mem_singleton.2 rfl
  exact ⟨componentMismatch, hmem,
    C8_amended_severity_step_functions libW webC7 figmaC7 componentMismatch hmem⟩

/-- C10: a padding side, margin side, gap, or border-radius whose computed
value parses to `0` (or fails to parse, which `|| 0` also sends to `0`) never
produces a spacing-pass mismatch, whatever the supplied spacing token values:
every mismatch emitted by the per-element spacing check has a strictly
positive parsed value for its property. -/
theorem C10_zero_box_values_never_mismatch (vals : List ℚ) (el : DOMElement)
    (sel : String) :
    ∀ m ∈ spacingCheck vals el sel,
      0 < spacingFieldValue el.computedStyles m.property := by
  intro m hm
  exact (spacingCheck_shape vals el sel m hm).2.1

/-- The element for the C10 witness: a 10px top padding. -/
def elemC10 : DOMElement :=
  { tagName := "div", id := some "box",
    computedStyles := { paddingTop := some (some 10) }, children := [] }

/-- The single mismatch emitted by the spacing check on `elemC10` against the
spacing value 16. -/
def mC10 : StyleMismatch :=
  { category := .spacing, property := "paddingTop",
    expectedValue := .px 16, actualValue := .px 10,
    element := mkElementRef elemC10 "#box",
    deviation := ((6 : ℚ) : WithTop ℚ), severity := .minor }

theorem spacingCheck_elemC10 : spacingCheck [16] elemC10 "#box" = [mC10] := by
  have h1 : elemC10.computedStyles.paddingTop = some (some 10) := rfl
  have h2 : elemC10.computedStyles.paddingRight = none := rfl
  have h3 : elemC10.computedStyles.paddingBottom = none := rfl
  have h4 : elemC10.computedStyles.paddingLeft = none := rfl
  have h5 : elemC10.computedStyles.marginTop = none := rfl
  have h6 : elemC10.computedStyles.marginRight = none := rfl
  have h7 : elemC10.computedStyles.marginBottom = none := rfl
  have h8 : elemC10.computedStyles.marginLeft = none := rfl
  have h9 : elemC10.computedStyles.gap = none := rfl
  have h10 : elemC10.computedStyles.borderRadius = none := rfl
  simp only [spacingCheck, spacingPropCheck, borderRadiusCheck, h1, h2, h3, h4, h5,
    h6, h7, h8, h9, h10, NumProp.parseOr0]
  norm_num [findSpacingMismatch, THRESHOLDS.spacing.pixels, mC10, getSpacingSeverity,
    THRESHOLDS.spacing.critical, THRESHOLDS.spacing.major]

/-- Witness for C10: the emitted `paddingTop` mismatch indeed has a positive
parsed value (10). -/
theorem C10_zero_box_values_never_mismatch_witness :
    0 < spacingFieldValue elemC10.computedStyles mC10.property :=
  C10_zero_box_values_never_mismatch [16] elemC10 "#box" mC10
    (by rw [spacingCheck_elemC10]; exact List.mem_singleton.2 rfl)

theorem colorDelta_self (p : Pixel) : colorDelta p p = 0 := by
  simp [colorDelta]

theorem pixelmatchMaxDelta_nonneg (t : ℚ) : 0 ≤ pixelmatchMaxDelta t := by
  rw [pixelmatchMaxDelta]
  positivity

theorem pixelDiffers_self (t : ℚ) (p : Pixel) : pixelDiffers t p p = false := by
  rw [pixelDiffers, colorDelta_self]
  simp [not_lt.2 (pixelmatchMaxDelta_nonneg t)]

theorem enumFromL_snd_mem {α : Type*} :
    ∀ {l : List α} {n : ℕ} {p : ℕ × α}, p ∈ enumFromL n l → p.2 ∈ l := by
  intro l
  induction l with
  | nil => intro n p h; cases h
  | cons x xs ih =>
    intro n p h
    rcases List.mem_cons.1 h with h | h
    · subst h; exact List.mem_cons_self _ _
    · exact List.mem_cons_of_mem _ (ih h)

theorem zip_self_eq {α : Type*} :
    ∀ {l : List α} {p : α × α}, p ∈ l.zip l → p.1 = p.2 := by
  intro l
  induction l with
  | nil => intro p h; cases h
  | cons x xs ih =>
    intro p h
    rw [List.zip_cons_cons] at h
    rcases List.mem_cons.1 h with h | h
    · subst h; rfl
    · exact ih h

theorem pixelmatchCount_self (pm : PixelmatchLib) (opts : PixelmatchOptions)
    (d : List Pixel) : pixelmatchCount pm opts d d = 0 := by
  rw [pixelmatchCount, List.length_eq_zero]
  apply List.filter_eq_nil_iff.2
  intro ip hip
  have h1 : ip.2.1 = ip.2.2 := zip_self_eq (enumFromL_snd_mem hip)
  rw [h1, pixelDiffers_self]
  simp

/-- C9: comparing any decodable image (positive pixel count) against itself
yields zero mismatched pixels, a 100.0 match percentage, and an empty diff
area list, for any pixelmatch configuration. -/
theorem C9_identical_image_self_compare (pm : PixelmatchLib)
    (opts : PixelmatchOptions) (img : PixelBuffer)
    (hpos : 0 < img.width * img.height) :
    (VisualDiffEngine.compare pm img img opts).mismatchedPixels = 0 ∧
    (VisualDiffEngine.compare pm img img opts).matchPercentage = 100 ∧
    (VisualDiffEngine.compare pm img img opts).diffAreas = [] := by
  have hnorm : normalizeImageSizes img img =
      (img.width, img.height, img, img) := by
    rw [normalizeImageSizes]
    simp
  have hcompare : VisualDiffEngine.compare pm img img opts =
      { diffImage := pixelmatchDiff pm opts img.data img.data
        matchPercentage := round2 ((((img.width * img.height : ℕ) : ℚ) -
          ((pixelmatchCount pm opts img.data img.data : ℕ) : ℚ)) /
          ((img.width * img.height : ℕ) : ℚ) * 100)
        mismatchedPixels := pixelmatchCount pm opts img.data img.data
        totalPixels := img.width * img.height
        diffAreas := findDiffAreas
          ⟨img.width, img.height, pixelmatchDiff pm opts img.data img.data⟩
          (pixelmatchCount pm opts img.data img.data) } := by
    rw [VisualDiffEngine.compare, hnorm]
  have hcount : pixelmatchCount pm opts img.data img.data = 0 :=
    pixelmatchCount_self pm opts img.data
  have hN : ((img.width * img.height : ℕ) : ℚ) ≠ 0 := by
    exact_mod_cast Nat.pos_iff_ne_zero.1 hpos
  rw [hcompare]
  refine ⟨hcount, ?_, ?_⟩
  · show round2 ((((img.width * img.height : ℕ) : ℚ) -
        ((pixelmatchCount pm opts img.data img.data : ℕ) : ℚ)) /
        ((img.width * img.height : ℕ) : ℚ) * 100) = 100
    rw [hcount]
    have hpct : (((img.width * img.height : ℕ) : ℚ) - ((0 : ℕ) : ℚ)) /
        ((img.width * img.height : ℕ) : ℚ) * 100 = 100 := by
      rw [Nat.cast_zero, sub_zero, div_self hN, one_mul]
    rw [hpct, round2]
    rw [show ((100 : ℚ) * 100) = ((10000 : ℤ) : ℚ) from by norm_num, round_intCast]
    norm_num
  · show findDiffAreas _ (pixelmatchCount pm opts img.data img.data) = []
    rw [hcount, findDiffAreas]
    simp

/-- Pixelmatch-library stand-in for the C9 witness: no anti-aliasing
exemptions, identity copy-through. -/
def pmW : PixelmatchLib := ⟨fun _ _ _ => false, fun _ p => p⟩

/-- A 1×1 solid-red image. -/
def imgW : PixelBuffer := ⟨1, 1, [(255, 0, 0, 255)]⟩

/-- Witness for C9 on the concrete 1×1 red image with default options. -/
theorem C9_identical_image_self_compare_witness :
    (VisualDiffEngine.compare pmW imgW imgW {}).mismatchedPixels = 0 ∧
    (VisualDiffEngine.compare pmW imgW imgW {}).matchPercentage = 100 ∧
    (VisualDiffEngine.compare pmW imgW imgW {}).diffAreas = [] :=
  C9_identical_image_self_compare pmW {} imgW (by norm_num [imgW])

end UIValidator
